import Mathlib

/-!
# A verification development for the pyheart card-game engine

This file gives a shallow embedding, in Lean 4, of the core of the
pyheart engine (`pyheart/cards.py`, `pyheart/game.py`, `pyheart/mixins.py`,
`pyheart/tree.py`) and proves properties of the embedded operations.

Python objects are modelled by a single global card store (an association
list from card id to card record) inside the game state, so that the
aliasing of card objects between hands, decks and the board is explicit:
mutating a card means updating the store at its id.  Exceptions are
modelled by a result type that carries the (possibly partially mutated)
state alongside the raised error, exactly as a Python exception leaves
already-performed mutations in place.
-/

namespace PyHeart

/-- Error taxonomy of `pyheart/exceptions.py`.  `emptyDeck` carries the
`deal_attempt` counter, `deadPlayer` carries the losing player's id. -/
inductive GErr where
  | deadCard
  | tooManyCards
  | missingCard
  | notEnoughMana
  | emptyDeck (count : Nat)
  | deadPlayer (pid : Nat)
  | gameNotStarted
  | invalidPlayerTurn
  | cardCannotAttack
  | targetNotDefined
  | invalidTarget
  deriving DecidableEq, Repr

/-- The `InvalidActionError` subclass family of `pyheart/exceptions.py`. -/
def GErr.isInvalidAction : GErr → Bool
  | .tooManyCards | .missingCard | .notEnoughMana | .gameNotStarted
  | .invalidPlayerTurn | .cardCannotAttack | .targetNotDefined | .invalidTarget => true
  | _ => false

/-- The concrete `Ability` subclasses of `pyheart/cards.py`. -/
inductive AbilityTag where
  | base
  | charge
  | increaseDamage
  | increaseMinionsHealth
  | setMinionHealthAndDamage
  | dealDamage
  deriving DecidableEq, Repr

/-- `Ability.__init__(value, allow_target)` plus the concrete subclass tag. -/
structure Ability where
  tag : AbilityTag
  val : Int
  canTarget : Bool
  deriving DecidableEq, Repr

/-- `MinionCard` versus `AbilityCard` (type field values in the source). -/
inductive CardKind where
  | minion
  | spell
  deriving DecidableEq, Repr

/-- A card record: the mutable runtime fields of `Card` / `MinionCard` /
`AbilityCard`.  Spells keep an unused `health` field (their Python objects
have no `_health` attribute, and no embedded operation reads it for a
spell). -/
structure Card where
  id : Nat
  cost : Nat
  kind : CardKind
  damage : Int
  health : Int
  canAttack : Bool
  wasPlayed : Bool
  ability : Ability
  deriving DecidableEq, Repr

/-- `Deck`: the ordered draw pile (`cards`, here as card ids into the
global store) and the cumulative `empty_card` counter. -/
structure Deck where
  cards : List Nat
  emptyCard : Nat
  deriving DecidableEq, Repr

/-- `Player`: health, mana bookkeeping, bound deck, hand and graveyard
(hands and graveyards hold ids into the global store). -/
structure Player where
  id : Nat
  health : Int
  currentMana : Nat
  usedMana : Nat
  deck : Deck
  hand : List Nat
  graveyard : List Nat
  deriving DecidableEq, Repr

/-- The whole game state: the global card store, the two (in tests also
one) players in `Game._players` insertion order, the board's
player-id-to-unit-ids mapping and unit-id map (as the list of ids whose
store entries the board map holds), the raw `Game._turn` counter and the
`_game_started` flag. -/
structure GameState where
  cards : List (Nat × Card)
  players : List Player
  boardPlayerCards : List (Nat × List Nat)
  boardCards : List Nat
  turnCounter : Nat
  started : Bool
  deriving DecidableEq, Repr

/-- Result of an engine operation: a value together with the resulting
state, or a raised error together with the state at the moment of the
raise (Python keeps all mutations done before an exception). -/
inductive PRes (α : Type) where
  | ok (a : α) (s : GameState)
  | err (e : GErr) (s : GameState)
  deriving DecidableEq, Repr

/-- The state carried by a result, whether normal or exceptional. -/
def PRes.state : PRes α → GameState
  | .ok _ s => s
  | .err _ s => s

/-! ## Association-list helpers (Python `dict` with insertion order) -/

/-- Lookup in the card store (`dict.__getitem__`). -/
def lookupCard : List (Nat × Card) → Nat → Option Card
  | [], _ => none
  | (j, c) :: t, i => if j = i then some c else lookupCard t i

/-- Store update (`dict.__setitem__`): replaces the value at an existing
key in place, appends a fresh key at the end. -/
def updateCard : List (Nat × Card) → Nat → Card → List (Nat × Card)
  | [], i, c => [(i, c)]
  | (j, d) :: t, i, c => if j = i then (i, c) :: t else (j, d) :: updateCard t i c

theorem lookupCard_updateCard (cs : List (Nat × Card)) (i j : Nat) (c : Card) :
    lookupCard (updateCard cs i c) j = if j = i then some c else lookupCard cs j := by
  induction cs with
  | nil =>
    by_cases h : j = i
    · subst h; simp [updateCard, lookupCard]
    · simp [updateCard, lookupCard, h, Ne.symm h]
  | cons hd t ih =>
    obtain ⟨k, d⟩ := hd
    by_cases hk : k = i
    · subst hk
      by_cases hj : j = k
      · subst hj; simp [updateCard, lookupCard]
      · simp [updateCard, lookupCard, hj, Ne.symm hj]
    · simp only [updateCard, if_neg hk, lookupCard]
      by_cases hj : k = j
      · have hji : ¬j = i := fun h => hk (hj.trans h)
        simp [hj, hji]
      · simp [hj, ih]

theorem lookupCard_updateCard_self (cs : List (Nat × Card)) (i : Nat) (c : Card) :
    lookupCard (updateCard cs i c) i = some c := by
  simp [lookupCard_updateCard]

theorem lookupCard_updateCard_ne (cs : List (Nat × Card)) (i j : Nat) (c : Card)
    (h : j ≠ i) : lookupCard (updateCard cs i c) j = lookupCard cs j := by
  simp [lookupCard_updateCard, h]

/-- Lookup in the board's `_player_cards` association list. -/
def lookupSet : List (Nat × List Nat) → Nat → Option (List Nat)
  | [], _ => none
  | (j, l) :: t, i => if j = i then some l else lookupSet t i

/-- Update of the board's `_player_cards` association list, appending a
fresh key at the end (`defaultdict` key creation). -/
def updateSet : List (Nat × List Nat) → Nat → List Nat → List (Nat × List Nat)
  | [], i, l => [(i, l)]
  | (j, m) :: t, i, l => if j = i then (i, l) :: t else (j, m) :: updateSet t i l

theorem lookupSet_updateSet (ss : List (Nat × List Nat)) (i j : Nat) (l : List Nat) :
    lookupSet (updateSet ss i l) j = if j = i then some l else lookupSet ss j := by
  induction ss with
  | nil =>
    by_cases h : j = i
    · subst h; simp [updateSet, lookupSet]
    · simp [updateSet, lookupSet, h, Ne.symm h]
  | cons hd t ih =>
    obtain ⟨k, m⟩ := hd
    by_cases hk : k = i
    · subst hk
      by_cases hj : j = k
      · subst hj; simp [updateSet, lookupSet]
      · simp [updateSet, lookupSet, hj, Ne.symm hj]
    · simp only [updateSet, if_neg hk, lookupSet]
      by_cases hj : k = j
      · have hji : ¬j = i := fun h => hk (hj.trans h)
        simp [hj, hji]
      · simp [hj, ih]

/-- `set.add`: inserts the id only when absent (kept at the tail, a set
has no duplicates). -/
def setAdd (l : List Nat) (i : Nat) : List Nat :=
  if i ∈ l then l else l ++ [i]

/-! ## Deck (`pyheart/cards.py`, `Deck.deal`) -/

/-- `Deck.deal(number)`: slices off the first `number` cards; on a
shortfall `difference > 0` the counter `empty_card` is increased by the
shortfall and `EmptyDeckError(self.empty_card)` is raised — the sliced-off
cards are lost, the error carries the cumulative counter. -/
def Deck.deal (d : Deck) (number : Nat) : Except GErr (List Nat) × Deck :=
  let nextCards := d.cards.take number
  let d1 : Deck := { d with cards := d.cards.drop number }
  let difference := number - nextCards.length
  if difference > 0 then
    let d2 : Deck := { d1 with emptyCard := d1.emptyCard + difference }
    (.error (.emptyDeck d2.emptyCard), d2)
  else
    (.ok nextCards, d1)

/-! ## Player helpers (`pyheart/game.py`, class `Player`) -/

/-- Effective mana: `current_mana - used_mana`. -/
def Player.mana (p : Player) : Int := (p.currentMana : Int) - (p.usedMana : Int)

/-- The `Player.health` setter: a value `≤ 0` latches health to `0` and
raises `DeadPlayerError` carrying the player. -/
def Player.setHealth (p : Player) (v : Int) : Player × Option GErr :=
  if v ≤ 0 then ({ p with health := 0 }, some (.deadPlayer p.id))
  else ({ p with health := v }, none)

/-- `Player.take_cards(number)`: deal from the deck into the hand; an
`EmptyDeckError` is consumed as fatigue, subtracting its `deal_attempt`
from health (possibly raising `DeadPlayerError`). -/
def Player.takeCards (p : Player) (number : Nat) : Player × Option GErr :=
  match p.deck.deal number with
  | (.ok ids, d1) => ({ p with deck := d1, hand := p.hand ++ ids }, none)
  | (.error (.emptyDeck cnt), d1) =>
      let p1 : Player := { p with deck := d1 }
      p1.setHealth (p1.health - (cnt : Int))
  | (.error e, d1) => ({ p with deck := d1 }, some e)

/-! ## Game-state helpers -/

/-- Placeholder for indexing an empty player list (unreachable in the
source, where a game always holds its players). -/
def dummyPlayer : Player := ⟨0, 0, 0, 0, ⟨[], 0⟩, [], []⟩

def GameState.getPlayer (s : GameState) (pid : Nat) : Option Player :=
  s.players.find? (fun p => p.id = pid)

def GameState.updatePlayer (s : GameState) (pid : Nat) (f : Player → Player) : GameState :=
  { s with players := s.players.map (fun p => if p.id = pid then f p else p) }

/-- `Game.turn`: `max(self._turn, 1)`. -/
def GameState.turn (s : GameState) : Nat := max s.turnCounter 1

/-- `Game.current_player = players[(turn - 1) % len(players)]`. -/
def GameState.currentPlayer (s : GameState) : Player :=
  s.players.getD ((s.turn - 1) % s.players.length) dummyPlayer

/-- `Game.next_player = players[turn % len(players)]`. -/
def GameState.nextPlayer (s : GameState) : Player :=
  s.players.getD (s.turn % s.players.length) dummyPlayer

/-- Write one card back into the global store (mutation of a live
Python card object, visible through every alias). -/
def updStore (s : GameState) (i : Nat) (c : Card) : GameState :=
  { s with cards := updateCard s.cards i c }

/-! ## Board (`pyheart/game.py`, class `Board`) -/

def maxCardsPerPlayer : Nat := 7

/-- The set of unit ids the board holds for a player (`defaultdict`
read: an absent player has the empty set). -/
def GameState.playerSet (s : GameState) (pid : Nat) : List Nat :=
  (lookupSet s.boardPlayerCards pid).getD []

/-- `Board.played_cards(player)`: the player's unit ids resolved through
the unit map (ids present in `_cards`). -/
def GameState.playedCards (s : GameState) (pid : Nat) : List Nat :=
  (s.playerSet pid).filter (fun i => i ∈ s.boardCards)

/-- `defaultdict` key creation on first access for a player. -/
def GameState.ensureKey (s : GameState) (pid : Nat) : GameState :=
  match lookupSet s.boardPlayerCards pid with
  | some _ => s
  | none => { s with boardPlayerCards := updateSet s.boardPlayerCards pid [] }

/-- `Board._add_card`: add the id to the player's set and the unit map. -/
def GameState.addCard (s : GameState) (pid cid : Nat) : GameState :=
  { s with boardPlayerCards := updateSet s.boardPlayerCards pid (setAdd (s.playerSet pid) cid),
           boardCards := setAdd s.boardCards cid }

/-- `Board._remove_card`: delete from the unit map and discard from every
player's set (ids are globally unique, per the source comment). -/
def GameState.removeCard (s : GameState) (cid : Nat) : GameState :=
  { s with boardCards := s.boardCards.erase cid,
           boardPlayerCards := s.boardPlayerCards.map (fun e => (e.1, e.2.erase cid)) }

/-- `Board.play_card`: reject with `TooManyCardsError` when the player
already shows `MAX_CARDS_PER_PLAYER` units, otherwise add the card. -/
def boardPlayCard (s : GameState) (pid cid : Nat) : PRes Unit :=
  if (s.playedCards pid).length ≥ maxCardsPerPlayer then .err .tooManyCards s
  else .ok () (s.addCard pid cid)

/-- `Board.get_card(card_id, player)`: the id must be in the player's own
set and in the unit map, otherwise `MissingCardError` (a `None` id also
fails the membership test). -/
def boardGetCard (s : GameState) (pid : Nat) (tid : Option Nat) : Except GErr Card :=
  match tid with
  | none => .error .missingCard
  | some t =>
      if t ∈ s.playerSet pid then
        match (if t ∈ s.boardCards then lookupCard s.cards t else none) with
        | some c => .ok c
        | none => .error .missingCard
      else .error .missingCard

/-- `Board.enemy_cards(player)`: units of the one other player the board
knows about (empty when there is none). -/
def GameState.enemyCards (s : GameState) (pid : Nat) : List Nat :=
  match (s.boardPlayerCards.map Prod.fst).filter (fun k => k ≠ pid) with
  | [] => []
  | e :: _ => s.playedCards e

/-! ## Combat (`pyheart/cards.py`, `MinionCard.attack` / `AbilityCard.attack`) -/

/-- The `MinionCard.health` setter: stores `max(0, value)` and raises
`DeadCardError` when the incoming value is `≤ 0`. -/
def minionSetHealth (c : Card) (v : Int) : Card × Option GErr :=
  ({ c with health := max 0 v }, if v ≤ 0 then some .deadCard else none)

/-- A victim as passed to `Board.attack`: a raw card id, a `Player`
object, or Python `None`. -/
inductive AttackTarget where
  | cardId (i : Nat)
  | playerT (i : Nat)
  | noneT
  deriving DecidableEq, Repr

/-- A victim after `Board.attack` resolved it against the unit map. -/
inductive RVictim where
  | card (i : Nat)
  | player (i : Nat)
  deriving DecidableEq, Repr

/-- `Player.health -= d` inside combat: a kill raises `DeadPlayerError`,
which propagates (it is not a `DeadCardError`). -/
def playerHealthSub (s : GameState) (pid : Nat) (d : Int) : PRes Unit :=
  match s.getPlayer pid with
  | none => .ok () s  -- unreachable: the source holds a live Player object here
  | some p =>
      match p.setHealth (p.health - d) with
      | (p1, some e) => .err e (s.updatePlayer pid (fun _ => p1))
      | (p1, none) => .ok () (s.updatePlayer pid (fun _ => p1))

/-- `attacker.attack(victim)` dispatched on the attacker's concrete class;
returns the list of dead cards for the board to remove.
`MinionCard.attack` gates on `can_attack`, clears it, damages the victim
and takes retaliation `getattr(victim, 'damage', 0)`; `AbilityCard.attack`
only damages the victim. A dead player propagates as `DeadPlayerError`. -/
def cardAttack (s : GameState) (aid : Nat) (v : RVictim) : PRes (List Nat) :=
  match lookupCard s.cards aid with
  | none => .err .missingCard s  -- unreachable: the attacker object is live in the source
  | some a =>
    match a.kind with
    | .spell =>
      match v with
      | .card vid =>
        match lookupCard s.cards vid with
        | none => .ok [] s  -- unreachable: the victim was resolved from the unit map
        | some vc =>
          match minionSetHealth vc (vc.health - a.damage) with
          | (vc1, some _) => .ok [vid] (updStore s vid vc1)
          | (vc1, none) => .ok [] (updStore s vid vc1)
      | .player pid =>
        match playerHealthSub s pid a.damage with
        | .err e s1 => .err e s1
        | .ok _ s1 => .ok [] s1
    | .minion =>
      if a.canAttack = false then .err .cardCannotAttack s
      else
        let s1 := updStore s aid { a with canAttack := false }
        match v with
        | .card vid =>
          match lookupCard s1.cards vid with
          | none => .ok [] s1  -- unreachable
          | some vc =>
            let hv := minionSetHealth vc (vc.health - a.damage)
            let s2 := updStore s1 vid hv.1
            let dead1 : List Nat := match hv.2 with | some _ => [vid] | none => []
            let rdmg : Int := match lookupCard s2.cards vid with
              | some w => w.damage
              | none => 0
            match lookupCard s2.cards aid with
            | none => .ok dead1 s2  -- unreachable
            | some ac =>
              let hr := minionSetHealth ac (ac.health - rdmg)
              let s3 := updStore s2 aid hr.1
              match hr.2 with
              | some _ => .ok (dead1 ++ [aid]) s3
              | none => .ok dead1 s3
        | .player pid =>
          match playerHealthSub s1 pid a.damage with
          | .err e s2 => .err e s2
          | .ok _ s2 =>
            match lookupCard s2.cards aid with
            | none => .ok [] s2  -- unreachable
            | some ac =>
              let hr := minionSetHealth ac (ac.health - 0)
              let s3 := updStore s2 aid hr.1
              match hr.2 with
              | some _ => .ok [aid] s3
              | none => .ok [] s3

/-- Remove each dead card from play. -/
def removeAll (s : GameState) (ids : List Nat) : GameState :=
  ids.foldl (fun t i => t.removeCard i) s

/-- `Board.attack(attacker, victim)`: resolve a card-id victim against
the unit map (an unknown id that is not a player raises
`MissingCardError`), run the attack, remove the dead. -/
def boardAttack (s : GameState) (aid : Nat) (v : AttackTarget) : PRes Unit :=
  let rv : Option RVictim :=
    match v with
    | .cardId i =>
        if i ∈ s.boardCards ∧ (lookupCard s.cards i).isSome then some (.card i) else none
    | .playerT i => some (.player i)
    | .noneT => none
  match rv with
  | none => .err .missingCard s
  | some rvv =>
    match cardAttack s aid rvv with
    | .err e s1 => .err e s1
    | .ok dead s1 => .ok () (removeAll s1 dead)

/-! ## Ability play phase (`pyheart/cards.py`) -/

/-- `IncreaseMinonsHealthAbility`: raise each of the player's played
units' health through the minion health setter; a `DeadCardError`
propagates immediately, keeping earlier mutations. -/
def healLoop (s : GameState) (ids : List Nat) (v : Int) : PRes Unit :=
  match ids with
  | [] => .ok () s
  | i :: t =>
    match lookupCard s.cards i with
    | none => healLoop s t v  -- unreachable under the board invariant
    | some c =>
      let hc := minionSetHealth c (c.health + v)
      let s1 := updStore s i hc.1
      match hc.2 with
      | some e1 => .err e1 s1
      | none => healLoop s1 t v

/-- The untargeted `DealDamage` wipe: attack every enemy unit in turn;
any exception propagates with the mutations already made. -/
def aoeLoop (s : GameState) (cid : Nat) (victims : List Nat) : PRes Unit :=
  match victims with
  | [] => .ok () s
  | i :: t =>
    match boardAttack s cid (.cardId i) with
    | .err e s1 => .err e s1
    | .ok _ s1 => aoeLoop s1 cid t

/-- `Ability.apply(card, 'play', player, board, target_id)` dispatched on
the concrete ability class, as in `pyheart/cards.py`. -/
def abilityPlay (s : GameState) (pid cid : Nat) (tid : Option Nat) : PRes Unit :=
  match lookupCard s.cards cid with
  | none => .err .missingCard s  -- unreachable: the card object is live in the source
  | some card =>
    match card.ability.tag with
    | .base => .ok () s
    | .charge => .ok () s
    | .increaseDamage =>
      match tid with
      | some _ => .err .invalidTarget s
      | none => .ok () (updStore s cid { card with damage := card.damage + card.ability.val })
    | .increaseMinionsHealth =>
      match tid with
      | some _ => .err .invalidTarget s
      | none => healLoop s (s.playedCards pid) card.ability.val
    | .setMinionHealthAndDamage =>
      match tid with
      | none => .err .targetNotDefined s
      | some t =>
        match boardGetCard s pid (some t) with
        | .error e => .err e s
        | .ok tc =>
          let ht := minionSetHealth tc card.ability.val
          let s1 := updStore s t ht.1
          match ht.2 with
          | some e1 => .err e1 s1
          | none => .ok () (updStore s1 t { ht.1 with damage := card.ability.val })
    | .dealDamage =>
      if card.ability.canTarget then
        match boardGetCard s pid tid with
        | .ok _ => .err .invalidTarget s
        | .error .missingCard =>
          let s1 := updStore s cid { card with canAttack := true }
          boardAttack s1 cid (match tid with | some t => .cardId t | none => .noneT)
        | .error e => .err e s  -- unreachable: get_card raises only MissingCardError
      else
        match tid with
        | some _ => .err .invalidTarget s
        | none => aoeLoop s cid (s.enemyCards pid)

/-! ## Playing a card (`Card.play`, `MinionCard.play`, `Player.play`) -/

/-- `Card.play(**kwargs)`: apply the play-phase ability once, then latch
`_was_played` on the live object. -/
def cardSuperPlay (s : GameState) (pid cid : Nat) (tid : Option Nat) : PRes Unit :=
  match lookupCard s.cards cid with
  | none => .err .missingCard s  -- unreachable
  | some card =>
    if card.wasPlayed then .ok () s
    else
      match abilityPlay s pid cid tid with
      | .err e s1 => .err e s1
      | .ok _ s1 =>
        match lookupCard s1.cards cid with
        | none => .ok () s1  -- unreachable
        | some c2 => .ok () (updStore s1 cid { c2 with wasPlayed := true })

/-- Dispatch of `card.play(...)`: `MinionCard.play` first rejects a target
for a non-targeting ability, then places the card on the board (possibly
`TooManyCardsError`), then runs `Card.play`; an `AbilityCard` runs
`Card.play` directly. -/
def cardPlay (s : GameState) (pid cid : Nat) (tid : Option Nat) : PRes Unit :=
  match lookupCard s.cards cid with
  | none => .err .missingCard s  -- unreachable
  | some card =>
    match card.kind with
    | .spell => cardSuperPlay s pid cid tid
    | .minion =>
      if card.ability.canTarget = false ∧ tid.isSome then .err .invalidTarget s
      else
        match boardPlayCard s pid cid with
        | .err e s1 => .err e s1
        | .ok _ s1 => cardSuperPlay s1 pid cid tid

/-- `Player.play(card_id, target_id)`: hand membership, mana check, card
play, then `used_mana += cost`, hand removal, graveyard append. -/
def playerPlay (s : GameState) (pid cid : Nat) (tid : Option Nat) : PRes Unit :=
  match s.getPlayer pid with
  | none => .err .missingCard s  -- unreachable: called with the current player
  | some p =>
    if cid ∉ p.hand then .err .missingCard s
    else
      match lookupCard s.cards cid with
      | none => .err .missingCard s  -- unreachable: hand ids live in the store
      | some card =>
        if (card.cost : Int) > p.mana then .err .notEnoughMana s
        else
          match cardPlay s pid cid tid with
          | .err e s1 => .err e s1
          | .ok _ s1 =>
            .ok () (s1.updatePlayer pid (fun q =>
              { q with usedMana := q.usedMana + card.cost,
                       hand := q.hand.erase cid,
                       graveyard := q.graveyard ++ [cid] }))

/-! ## Game (`pyheart/game.py`, class `Game`) -/

/-- `Game._check_state`: started gate, then turn-ownership gate. -/
def checkState (s : GameState) (pid : Nat) : Option GErr :=
  if s.started = false then some .gameNotStarted
  else if pid ≠ s.currentPlayer.id then some .invalidPlayerTurn
  else none

/-- Body of `Board.reset_cards`: set `can_attack = True` on every unit of
the player through the unit map. -/
def resetCardsLoop (s : GameState) (ids : List Nat) : GameState :=
  match ids with
  | [] => s
  | i :: t =>
    match lookupCard s.cards i with
    | none => resetCardsLoop s t  -- unreachable under the board invariant
    | some c => resetCardsLoop (updStore s i { c with canAttack := true }) t

/-- `Board.reset_cards(player)` (the `defaultdict` access creates the
player's entry). -/
def boardResetCards (s : GameState) (pid : Nat) : GameState :=
  resetCardsLoop (s.ensureKey pid) ((s.ensureKey pid).playerSet pid)

/-- `Game.endturn(player_id)`: gates, `turn += 1`, reset the incoming
player's units, `current_mana = min(current_mana + 1, 10)`,
`used_mana = 0`, draw one card (fatigue may raise `DeadPlayerError`). -/
def gameEndturn (s : GameState) (pid : Nat) : PRes Unit :=
  match checkState s pid with
  | some e => .err e s
  | none =>
    let s1 : GameState := { s with turnCounter := s.turnCounter + 1 }
    let inc := s1.currentPlayer
    let s2 := boardResetCards s1 inc.id
    let s3 := s2.updatePlayer inc.id (fun p =>
      { p with currentMana := min (p.currentMana + 1) 10, usedMana := 0 })
    match s3.getPlayer inc.id with
    | none => .ok () s3  -- unreachable
    | some p =>
      match p.takeCards 1 with
      | (p1, some e) => .err e (s3.updatePlayer inc.id (fun _ => p1))
      | (p1, none) => .ok () (s3.updatePlayer inc.id (fun _ => p1))

/-- `Game.start()`: idempotent; flips the flag and runs the first
`endturn` for the current player. -/
def gameStart (s : GameState) : PRes Unit :=
  if s.started then .ok () s
  else
    let s1 : GameState := { s with started := true }
    gameEndturn s1 s1.currentPlayer.id

/-- `Game.play(player_id, card_id, target_id)`. -/
def gamePlay (s : GameState) (pid cid : Nat) (tid : Option Nat) : PRes Unit :=
  match checkState s pid with
  | some e => .err e s
  | none => playerPlay s s.currentPlayer.id cid tid

/-- `Game.attack(player_id, attacker_id, victim_id)`: a victim id that
names a player is replaced by the player object; the attacker must be a
unit of the current player (`Board.get_card`). -/
def gameAttack (s : GameState) (pid aid vid : Nat) : PRes Unit :=
  match checkState s pid with
  | some e => .err e s
  | none =>
    let victim : AttackTarget :=
      if vid ∈ s.players.map Player.id then .playerT vid else .cardId vid
    match boardGetCard s s.currentPlayer.id (some aid) with
    | .error e => .err e s
    | .ok _ => boardAttack s aid victim

/-- The public engine API as a single action type (used to express
invariants over every operation). -/
inductive GAction where
  | start
  | endturn (pid : Nat)
  | play (pid cid : Nat) (tid : Option Nat)
  | attack (pid aid vid : Nat)
  deriving DecidableEq, Repr

def applyAction : GAction → GameState → PRes Unit
  | .start, s => gameStart s
  | .endturn pid, s => gameEndturn s pid
  | .play pid cid tid, s => gamePlay s pid cid tid
  | .attack pid aid vid, s => gameAttack s pid aid vid

/-- The raised error of a result, if any. -/
def PRes.error? : PRes α → Option GErr
  | .ok _ _ => none
  | .err e _ => some e

/-! ## The identifier service (`pyheart/mixins.py`) -/

/-- One lowercase hex digit (for digit values `0..15`). -/
def hexDigit (n : Nat) : Char :=
  if n < 10 then Char.ofNat (48 + n) else Char.ofNat (87 + n)

/-- Fixed-width big-endian hex rendering of a natural number. -/
def natToHex : Nat → Nat → List Char
  | _, 0 => []
  | n, d + 1 => natToHex (n / 16) d ++ [hexDigit (n % 16)]

/-- `str(uuid4())` for a 128-bit value: five dash-separated groups of
8, 4, 4, 4 and 12 hex digits, most significant first. -/
def uuidChars (u : Nat) : List Char :=
  let v := u % 2 ^ 128
  natToHex (v / 2 ^ 96) 8 ++ ['-'] ++ natToHex (v / 2 ^ 80 % 2 ^ 16) 4 ++ ['-'] ++
    natToHex (v / 2 ^ 64 % 2 ^ 16) 4 ++ ['-'] ++ natToHex (v / 2 ^ 48 % 2 ^ 16) 4 ++ ['-'] ++
    natToHex (v % 2 ^ 48) 12

/-- `UniqueIdentifierMixin.__init__`:
`self._uuid, *_ = str(uuid4()).split('-')` keeps only the first
dash-separated group of the textual form, and `id` returns it. -/
def uuidId (u : Nat) : List Char := (uuidChars u).takeWhile (fun ch => ch ≠ '-')

/-! ## The UCT scoring function (`pyheart/tree.py`) -/

/-- `Node.score`: `wins / (wins + losses)` when `wins + losses` is
non-zero, else `0`. -/
noncomputable def nodeScore (wins losses : ℝ) : ℝ :=
  if wins + losses ≠ 0 then wins / (wins + losses) else 0

/-- `GameTree._calculate_uct`: a child acting for another player than the
searching player scores `-random.random()` (here the draw `r` is an
explicit parameter); otherwise
`score + 2 * (1/sqrt 2) * sqrt (2 * log parentVisits / childVisits)`. -/
noncomputable def calculateUct (searcher childPlayer : Nat) (r : ℝ)
    (parentVisits childVisits : Nat) (wins losses : ℝ) : ℝ :=
  if childPlayer ≠ searcher then -r
  else nodeScore wins losses +
    2 * (1 / Real.sqrt 2) * Real.sqrt (2 * Real.log parentVisits / childVisits)

/-! # Claim theorems -/

/-! ## C3: `Deck.deal` on a shortfall -/

/-- C3 (counterexample): on a shortfall `Deck.deal` raises carrying the
cumulative counter, not this draw's shortfall, and the partially drawn
cards are lost, not returned.  Dealing one card twice from an empty deck
raises `EmptyDeck 2` on the second draw whose own shortfall is `1`; and
dealing `2` from a one-card deck raises while emptying the deck, so the
existing card is neither in the deck nor handed to the caller. -/
theorem C3_deal_counterexample :
    (Deck.deal (Deck.deal ⟨[], 0⟩ 1).2 1).1 = .error (.emptyDeck 2) ∧
    (2 : Nat) ≠ 1 ∧
    (Deck.deal ⟨[5], 0⟩ 2).1 = .error (.emptyDeck 1) ∧
    (Deck.deal ⟨[5], 0⟩ 2).2.cards = [] :=
  ⟨rfl, by decide, rfl, rfl⟩

/-- C3 (amended): `deal n` removes up to `n` cards from the front and
returns them when enough remain; on a shortfall `d > 0` it removes and
discards the remaining cards (the caller receives nothing, the error
return carries no cards), accumulates `empty_draws += d`, and raises
`EmptyDeck` carrying the cumulative counter `empty_draws + d`, which
equals this draw's shortfall only when the counter was previously zero. -/
theorem C3_deal_amended (d : Deck) (n : Nat) :
    (n ≤ d.cards.length →
      Deck.deal d n = (.ok (d.cards.take n), ⟨d.cards.drop n, d.emptyCard⟩)) ∧
    (d.cards.length < n →
      Deck.deal d n =
        (.error (.emptyDeck (d.emptyCard + (n - d.cards.length))),
         ⟨[], d.emptyCard + (n - d.cards.length)⟩)) := by
  constructor
  · intro h
    have hl : (d.cards.take n).length = n := by
      simp [List.length_take]
      omega
    simp [Deck.deal, hl]
  · intro h
    have hl : (d.cards.take n).length = d.cards.length := by
      simp [List.length_take]
      omega
    have hd : d.cards.drop n = [] := by
      apply List.drop_eq_nil_of_le
      omega
    have hpos : 0 < n - d.cards.length := by omega
    simp [Deck.deal, hl, hd, hpos]

/-- C3 (witness for the amended theorem). -/
theorem C3_deal_amended_witness :
    Deck.deal ⟨[1, 2, 3], 0⟩ 2 = (.ok [1, 2], ⟨[3], 0⟩) ∧
    Deck.deal ⟨[7], 4⟩ 3 = (.error (.emptyDeck 6), ⟨[], 6⟩) := by
  constructor
  · have h := (C3_deal_amended ⟨[1, 2, 3], 0⟩ 2).1 (by decide)
    simpa using h
  · have h := (C3_deal_amended ⟨[7], 4⟩ 3).2 (by decide)
    simpa using h

/-! ## C4: only-player fatigue -/

/-- The only-player fatigue scenario: one player, empty deck, no starting
hand, health 5, game not yet started. -/
def fatigueStart : GameState := ⟨[], [⟨0, 5, 0, 0, ⟨[], 0⟩, [], []⟩], [], [], 0, false⟩

/-- C4: with an empty deck, a starting hand of 0 and health 5, `start()`
brings the player's health to 4 (first empty draw reports 1), the next
end-turn brings it to `4 - 2 = 2`, and the following end-turn raises
`DeadPlayer` (third draw reports 3, `2 - 3 ≤ 0`), because the deck
reports the cumulative shortfall `n` on the `n`-th empty draw. -/
theorem C4_only_player_fatigue :
    ((gameStart fatigueStart).state.getPlayer 0).map Player.health = some 4 ∧
    ((gameStart fatigueStart).state.getPlayer 0).map (fun p => p.deck.emptyCard) = some 1 ∧
    ((gameEndturn (gameStart fatigueStart).state 0).state.getPlayer 0).map Player.health
      = some 2 ∧
    (gameEndturn (gameEndturn (gameStart fatigueStart).state 0).state 0).error?
      = some (.deadPlayer 0) ∧
    ((gameEndturn (gameEndturn (gameStart fatigueStart).state 0).state 0).state.getPlayer
        0).map Player.health = some 0 ∧
    ((gameEndturn (gameEndturn (gameStart fatigueStart).state 0).state 0).state.getPlayer
        0).map (fun p => p.deck.emptyCard) = some 3 := by
  decide

/-! ## C8: the UCT child score -/

/-- C8: for a child acting for the searching player the tree policy
scores it `wins/(wins+losses) + 2 * (1/sqrt 2) * sqrt (2 * ln parentVisits
/ childVisits)` with the exploitation term `0` when `wins + losses = 0`;
for a child acting for the other player the score is the negated uniform
draw `-r`, which lies in `(-1, 0]` for `r` in `[0, 1)`. -/
theorem C8_uct_score (searcher childPlayer : Nat) (r : ℝ)
    (pv cv : Nat) (w l : ℝ) :
    (childPlayer = searcher →
      calculateUct searcher childPlayer r pv cv w l =
        (if w + l = 0 then 0 else w / (w + l)) +
          2 * (1 / Real.sqrt 2) * Real.sqrt (2 * Real.log pv / cv)) ∧
    (childPlayer ≠ searcher →
      calculateUct searcher childPlayer r pv cv w l = -r ∧
        (0 ≤ r → r < 1 → -1 < -r ∧ -r ≤ 0)) := by
  constructor
  · intro h
    subst h
    show (if childPlayer ≠ childPlayer then -r else _) = _
    rw [if_neg (by simp)]
    congr 1
    show (if w + l ≠ 0 then w / (w + l) else 0) = _
    rcases eq_or_ne (w + l) 0 with h0 | h0
    · simp [h0]
    · simp [h0]
  · intro h
    refine ⟨by simp [calculateUct, h], ?_⟩
    intro h0 h1
    constructor <;> linarith

/-- C8 (witness). -/
theorem C8_uct_score_witness :
    calculateUct 0 0 (1 / 2) 3 1 2 2 =
      (if (2 : ℝ) + 2 = 0 then 0 else 2 / (2 + 2)) +
        2 * (1 / Real.sqrt 2) * Real.sqrt (2 * Real.log ((3 : ℕ) : ℝ) / ((1 : ℕ) : ℝ)) ∧
    calculateUct 0 1 (1 / 2) 3 1 2 2 = -(1 / 2) ∧
      (-1 < -(1 / 2 : ℝ) ∧ -(1 / 2 : ℝ) ≤ 0) := by
  refine ⟨(C8_uct_score 0 0 (1 / 2) 3 1 2 2).1 rfl, ?_⟩
  have h := (C8_uct_score 0 1 (1 / 2) 3 1 2 2).2 (by decide)
  exact ⟨h.1, h.2 (by norm_num) (by norm_num)⟩

/-! ## C9: the identifier service -/

/-- C9 (counterexample): the stored identifier is not the 128-bit value:
the distinct 128-bit values `0` and `1` yield the same identifier, so
identifiers are not globally unique over the emitted 128-bit values and
carry at most 32 bits. -/
theorem C9_id_counterexample : uuidId 0 = uuidId 1 ∧ (0 : Nat) ≠ 1 := by
  constructor
  · rfl
  · decide

theorem hexDigit_ne_dash (n : Nat) (h : n < 16) : hexDigit n ≠ '-' := by
  interval_cases n <;> decide

theorem natToHex_no_dash (n d : Nat) : ∀ ch ∈ natToHex n d, ch ≠ '-' := by
  induction d generalizing n with
  | zero => simp [natToHex]
  | succ d ih =>
    intro ch hch
    simp only [natToHex, List.mem_append, List.mem_singleton] at hch
    rcases hch with hch | hch
    · exact ih (n / 16) ch hch
    · subst hch
      exact hexDigit_ne_dash _ (Nat.mod_lt _ (by omega))

theorem natToHex_length (n d : Nat) : (natToHex n d).length = d := by
  induction d generalizing n with
  | zero => simp [natToHex]
  | succ d ih => simp [natToHex, ih]

theorem takeWhile_left (p : Char → Bool) (l1 l2 : List Char)
    (h1 : ∀ ch ∈ l1, p ch = true) (c : Char) (hc : p c = false) :
    (l1 ++ c :: l2).takeWhile p = l1 := by
  induction l1 with
  | nil => simp [List.takeWhile, hc]
  | cons a t ih =>
    have ha : p a = true := h1 a (by simp)
    simp only [List.cons_append, List.takeWhile_cons, ha, if_true]
    rw [ih fun ch hch => h1 ch (by simp [hch])]

/-- C9 (amended): the identifier assigned at construction is exactly the
first 8 hex characters of the fresh UUID4's textual form, i.e. it encodes
only the top 32 of the 128 bits; it is 8 characters long, and any two
128-bit values agreeing on those 32 bits receive equal identifiers, so
uniqueness is not guaranteed and the per-identifier entropy is at most 32
bits. -/
theorem C9_id_amended (u v : Nat) :
    uuidId u = natToHex (u % 2 ^ 128 / 2 ^ 96) 8 ∧
    (uuidId u).length = 8 ∧
    (u % 2 ^ 128 / 2 ^ 96 = v % 2 ^ 128 / 2 ^ 96 → uuidId u = uuidId v) := by
  have key : ∀ w : Nat, uuidId w = natToHex (w % 2 ^ 128 / 2 ^ 96) 8 := by
    intro w
    show (uuidChars w).takeWhile _ = _
    rw [uuidChars]
    rw [List.append_assoc, List.append_assoc, List.append_assoc, List.append_assoc,
      List.append_assoc, List.append_assoc, List.append_assoc]
    simp only [List.singleton_append]
    exact takeWhile_left _ _ _
      (fun ch hch => by simpa using natToHex_no_dash _ _ ch hch) '-' (by decide)
  refine ⟨key u, ?_, ?_⟩
  · rw [key u, natToHex_length]
  · intro h
    rw [key u, key v, h]

/-- C9 (witness for the amended theorem). -/
theorem C9_id_amended_witness :
    uuidId 5 = natToHex (5 % 2 ^ 128 / 2 ^ 96) 8 ∧ uuidId 5 = uuidId 6 :=
  ⟨(C9_id_amended 5 6).1, (C9_id_amended 5 6).2.2 (by norm_num)⟩

/-! ## State-accessor lemmas used by the remaining claims -/

@[simp] theorem updStore_cards (s : GameState) (i : Nat) (c : Card) :
    (updStore s i c).cards = updateCard s.cards i c := rfl

@[simp] theorem updStore_boardCards (s : GameState) (i : Nat) (c : Card) :
    (updStore s i c).boardCards = s.boardCards := rfl

@[simp] theorem updStore_boardPlayerCards (s : GameState) (i : Nat) (c : Card) :
    (updStore s i c).boardPlayerCards = s.boardPlayerCards := rfl

@[simp] theorem updStore_players (s : GameState) (i : Nat) (c : Card) :
    (updStore s i c).players = s.players := rfl

@[simp] theorem updStore_turnCounter (s : GameState) (i : Nat) (c : Card) :
    (updStore s i c).turnCounter = s.turnCounter := rfl

@[simp] theorem updStore_playerSet (s : GameState) (i : Nat) (c : Card) (pid : Nat) :
    (updStore s i c).playerSet pid = s.playerSet pid := rfl

@[simp] theorem removeCard_cards (s : GameState) (i : Nat) :
    (s.removeCard i).cards = s.cards := rfl

@[simp] theorem removeCard_boardCards (s : GameState) (i : Nat) :
    (s.removeCard i).boardCards = s.boardCards.erase i := rfl

@[simp] theorem removeCard_players (s : GameState) (i : Nat) :
    (s.removeCard i).players = s.players := rfl

@[simp] theorem removeAll_nil (s : GameState) : removeAll s [] = s := rfl

@[simp] theorem removeAll_cons (s : GameState) (i : Nat) (t : List Nat) :
    removeAll s (i :: t) = removeAll (s.removeCard i) t := rfl

/-! ## Unfolding lemmas for combat and the targeted `DealDamage` -/

theorem boardGetCard_not_mine (s : GameState) (pid t : Nat)
    (h : t ∉ s.playerSet pid) :
    boardGetCard s pid (some t) = .error .missingCard := by
  simp [boardGetCard, h]

theorem boardGetCard_not_on_board (s : GameState) (pid t : Nat)
    (h : t ∉ s.boardCards) :
    boardGetCard s pid (some t) = .error .missingCard := by
  by_cases hp : t ∈ s.playerSet pid <;> simp [boardGetCard, hp, h]

theorem boardGetCard_mine (s : GameState) (pid t : Nat) (w : Card)
    (h1 : t ∈ s.playerSet pid) (h2 : t ∈ s.boardCards)
    (h3 : lookupCard s.cards t = some w) :
    boardGetCard s pid (some t) = .ok w := by
  simp [boardGetCard, h1, h2, h3]

theorem abilityPlay_dealDamage_ct (s : GameState) (pid cid : Nat) (c : Card)
    (tid : Option Nat) (hc : lookupCard s.cards cid = some c)
    (htag : c.ability.tag = .dealDamage) (hct : c.ability.canTarget = true) :
    abilityPlay s pid cid tid =
      match boardGetCard s pid tid with
      | .ok _ => .err .invalidTarget s
      | .error .missingCard =>
          boardAttack (updStore s cid { c with canAttack := true }) cid
            (match tid with | some t => .cardId t | none => .noneT)
      | .error e => .err e s := by
  simp [abilityPlay, hc, htag, hct]

theorem cardAttack_spell_card (s : GameState) (aid vid : Nat) (a vc : Card)
    (hc : lookupCard s.cards aid = some a) (hk : a.kind = .spell)
    (hv : lookupCard s.cards vid = some vc) :
    cardAttack s aid (.card vid) =
      .ok (if vc.health - a.damage ≤ 0 then [vid] else [])
        (updStore s vid { vc with health := max 0 (vc.health - a.damage) }) := by
  rcases le_or_lt (vc.health - a.damage) 0 with h | h
  · simp [cardAttack, hc, hk, hv, minionSetHealth, h]
  · simp [cardAttack, hc, hk, hv, minionSetHealth, not_le.mpr h]

theorem cardAttack_minion_card (s : GameState) (aid vid : Nat) (a vc : Card)
    (hc : lookupCard s.cards aid = some a) (hk : a.kind = .minion)
    (hca : a.canAttack = true) (hne : vid ≠ aid)
    (hv : lookupCard s.cards vid = some vc) :
    cardAttack s aid (.card vid) =
      .ok ((if vc.health - a.damage ≤ 0 then [vid] else []) ++
           (if a.health - vc.damage ≤ 0 then [aid] else []))
        (updStore
          (updStore (updStore s aid { a with canAttack := false }) vid
            { vc with health := max 0 (vc.health - a.damage) })
          aid { a with canAttack := false, health := max 0 (a.health - vc.damage) }) := by
  rcases le_or_lt (vc.health - a.damage) 0 with hd | hd <;>
    rcases le_or_lt (a.health - vc.damage) 0 with hr | hr
  · simp [cardAttack, hc, hk, hca, updStore, lookupCard_updateCard, hne, Ne.symm hne,
      minionSetHealth, hv, hd, hr]
  · simp [cardAttack, hc, hk, hca, updStore, lookupCard_updateCard, hne, Ne.symm hne,
      minionSetHealth, hv, hd, not_le.mpr hr]
  · simp [cardAttack, hc, hk, hca, updStore, lookupCard_updateCard, hne, Ne.symm hne,
      minionSetHealth, hv, not_le.mpr hd, hr]
  · simp [cardAttack, hc, hk, hca, updStore, lookupCard_updateCard, hne, Ne.symm hne,
      minionSetHealth, hv, not_le.mpr hd, not_le.mpr hr]

theorem boardAttack_card_resolved (s : GameState) (aid vid : Nat)
    (h1 : vid ∈ s.boardCards) (h2 : (lookupCard s.cards vid).isSome) :
    boardAttack s aid (.cardId vid) =
      match cardAttack s aid (.card vid) with
      | .err e s1 => .err e s1
      | .ok dead s1 => .ok () (removeAll s1 dead) := by
  simp [boardAttack, h1, h2]

theorem boardAttack_card_unresolved (s : GameState) (aid vid : Nat)
    (h : vid ∉ s.boardCards) :
    boardAttack s aid (.cardId vid) = .err .missingCard s := by
  simp [boardAttack, h]

/-- A resolved attack on a board unit harms only that victim (and, for a
minion attacker, the attacker itself): no third card's record or board
membership changes, and players are untouched. -/
theorem attack_sole_victim (s : GameState) (aid vid : Nat) (a vc : Card)
    (hnd : s.boardCards.Nodup)
    (ha : lookupCard s.cards aid = some a)
    (hv : lookupCard s.cards vid = some vc) (hne : vid ≠ aid)
    (hb : vid ∈ s.boardCards)
    (hok : a.kind = .spell ∨ (a.kind = .minion ∧ a.canAttack = true)) :
    (boardAttack s aid (.cardId vid)).error? = none ∧
    lookupCard (boardAttack s aid (.cardId vid)).state.cards vid =
      some { vc with health := max 0 (vc.health - a.damage) } ∧
    (∀ j, j ≠ vid → j ≠ aid →
      lookupCard (boardAttack s aid (.cardId vid)).state.cards j = lookupCard s.cards j ∧
      (j ∈ (boardAttack s aid (.cardId vid)).state.boardCards ↔ j ∈ s.boardCards)) ∧
    (boardAttack s aid (.cardId vid)).state.players = s.players ∧
    (0 < vc.health - a.damage → vid ∈ (boardAttack s aid (.cardId vid)).state.boardCards) ∧
    (vc.health - a.damage ≤ 0 → vid ∉ (boardAttack s aid (.cardId vid)).state.boardCards) := by
  have hres := boardAttack_card_resolved s aid vid hb (by simp [hv])
  rcases hok with hk | ⟨hk, hca⟩
  · rw [cardAttack_spell_card s aid vid a vc ha hk hv] at hres
    rcases le_or_lt (vc.health - a.damage) 0 with hd | hd
    · rw [if_pos hd] at hres
      simp only [removeAll_cons, removeAll_nil] at hres
      rw [hres]
      refine ⟨rfl, ?_, ?_, rfl, ?_, ?_⟩
      · simp [PRes.state, updStore, lookupCard_updateCard]
      · intro j hj1 hj2
        exact ⟨by simp [PRes.state, updStore, lookupCard_updateCard, hj1],
          by simpa [PRes.state] using List.mem_erase_of_ne hj1⟩
      · intro h0
        omega
      · intro h
        simp [PRes.state, List.Nodup.mem_erase_iff hnd]
    · rw [if_neg (not_le.mpr hd)] at hres
      simp only [removeAll_nil] at hres
      rw [hres]
      refine ⟨rfl, ?_, ?_, rfl, ?_, ?_⟩
      · simp [PRes.state, updStore, lookupCard_updateCard]
      · intro j hj1 hj2
        exact ⟨by simp [PRes.state, updStore, lookupCard_updateCard, hj1], Iff.rfl⟩
      · intro h0
        exact hb
      · intro h
        omega
  · rw [cardAttack_minion_card s aid vid a vc ha hk hca hne hv] at hres
    rcases le_or_lt (vc.health - a.damage) 0 with hd | hd <;>
      rcases le_or_lt (a.health - vc.damage) 0 with hr | hr
    · rw [if_pos hd, if_pos hr] at hres
      simp only [List.cons_append, List.nil_append, removeAll_cons, removeAll_nil] at hres
      rw [hres]
      refine ⟨rfl, ?_, ?_, rfl, ?_, ?_⟩
      · simp [PRes.state, updStore, lookupCard_updateCard, hne]
      · intro j hj1 hj2
        refine ⟨by simp [PRes.state, updStore, lookupCard_updateCard, hj1, hj2], ?_⟩
        simp only [PRes.state, removeCard_boardCards, updStore_boardCards]
        rw [List.mem_erase_of_ne hj2, List.mem_erase_of_ne hj1]
      · intro h0
        omega
      · intro h
        simp only [PRes.state, removeCard_boardCards, updStore_boardCards]
        intro hmem
        have h2 : vid ∈ (s.boardCards.erase vid) := List.erase_subset _ _ hmem
        simp [List.Nodup.mem_erase_iff hnd] at h2
    · rw [if_pos hd, if_neg (not_le.mpr hr)] at hres
      simp only [List.cons_append, List.nil_append, List.append_nil,
        removeAll_cons, removeAll_nil] at hres
      rw [hres]
      refine ⟨rfl, ?_, ?_, rfl, ?_, ?_⟩
      · simp [PRes.state, updStore, lookupCard_updateCard, hne]
      · intro j hj1 hj2
        refine ⟨by simp [PRes.state, updStore, lookupCard_updateCard, hj1, hj2], ?_⟩
        simp only [PRes.state, removeCard_boardCards, updStore_boardCards]
        rw [List.mem_erase_of_ne hj1]
      · intro h0
        omega
      · intro h
        simp [PRes.state, List.Nodup.mem_erase_iff hnd]
    · rw [if_neg (not_le.mpr hd), if_pos hr] at hres
      simp only [List.nil_append, removeAll_cons, removeAll_nil] at hres
      rw [hres]
      refine ⟨rfl, ?_, ?_, rfl, ?_, ?_⟩
      · simp [PRes.state, updStore, lookupCard_updateCard, hne]
      · intro j hj1 hj2
        refine ⟨by simp [PRes.state, updStore, lookupCard_updateCard, hj1, hj2], ?_⟩
        simp only [PRes.state, removeCard_boardCards, updStore_boardCards]
        rw [List.mem_erase_of_ne hj2]
      · intro h0
        simp only [PRes.state, removeCard_boardCards, updStore_boardCards]
        rw [List.mem_erase_of_ne hne]
        exact hb
      · intro h
        omega
    · rw [if_neg (not_le.mpr hd), if_neg (not_le.mpr hr)] at hres
      simp only [List.append_nil, removeAll_nil] at hres
      rw [hres]
      refine ⟨rfl, ?_, ?_, rfl, ?_, ?_⟩
      · simp [PRes.state, updStore, lookupCard_updateCard, hne]
      · intro j hj1 hj2
        exact ⟨by simp [PRes.state, updStore, lookupCard_updateCard, hj1, hj2], Iff.rfl⟩
      · intro h0
        exact hb
      · intro h
        omega

/-! ## C2: targeted `DealDamage` -/

/-- A started two-player game: the current player (id 0) holds the
targeted-`DealDamage` spell 12 in hand, the opponent (id 1) controls
unit 20 with health 3. -/
def dealTargetState : GameState :=
  ⟨[(20, ⟨20, 1, .minion, 1, 3, false, false, ⟨.base, 0, false⟩⟩),
    (12, ⟨12, 0, .spell, 3, 0, false, false, ⟨.dealDamage, 3, true⟩⟩)],
   [⟨0, 20, 5, 0, ⟨[], 0⟩, [12], []⟩, ⟨1, 20, 5, 0, ⟨[], 0⟩, [], []⟩],
   [(0, []), (1, [20])], [20], 1, true⟩

/-- C2 (counterexample): playing the targeted-`DealDamage` spell with a
target id matching no card on the board does not fall through to the
global enemy wipe: the play fails with `MissingCard` and the enemy unit's
health is untouched. -/
theorem C2_missing_target_counterexample :
    (gamePlay dealTargetState 0 12 (some 99)).error? = some .missingCard ∧
    (lookupCard (gamePlay dealTargetState 0 12 (some 99)).state.cards 20).map Card.health
      = some 3 := by
  decide

/-- C2 (amended): for every play-phase resolution of a card whose ability
is `DealDamage(v, can_target=true)`: a target id naming one of the
player's own board units fails with `InvalidTarget` (state unchanged at
this point); a target id naming any other board unit makes that unit the
sole victim — its health drops by the card's damage, it leaves the board
exactly when that exhausts its health, and no third card or any player is
affected; and a target id matching no card on the board does not fall
through to the global enemy wipe: it raises `MissingCard`, the only
mutation being the `can_attack` latch on the played card itself. -/
theorem C2_dealDamage_target (s : GameState) (pid cid : Nat) (c : Card)
    (hc : lookupCard s.cards cid = some c)
    (htag : c.ability.tag = .dealDamage) (hct : c.ability.canTarget = true) :
    (∀ t w, t ∈ s.playerSet pid → t ∈ s.boardCards → lookupCard s.cards t = some w →
      abilityPlay s pid cid (some t) = .err .invalidTarget s) ∧
    (∀ t, t ∉ s.boardCards →
      abilityPlay s pid cid (some t) =
        .err .missingCard (updStore s cid { c with canAttack := true })) ∧
    (∀ t vc, s.boardCards.Nodup → t ∉ s.playerSet pid → t ∈ s.boardCards →
      lookupCard s.cards t = some vc → t ≠ cid →
      (abilityPlay s pid cid (some t)).error? = none ∧
      lookupCard (abilityPlay s pid cid (some t)).state.cards t =
        some { vc with health := max 0 (vc.health - c.damage) } ∧
      (∀ j, j ≠ t → j ≠ cid →
        lookupCard (abilityPlay s pid cid (some t)).state.cards j = lookupCard s.cards j ∧
        (j ∈ (abilityPlay s pid cid (some t)).state.boardCards ↔ j ∈ s.boardCards)) ∧
      (abilityPlay s pid cid (some t)).state.players = s.players ∧
      (0 < vc.health - c.damage → t ∈ (abilityPlay s pid cid (some t)).state.boardCards) ∧
      (vc.health - c.damage ≤ 0 →
        t ∉ (abilityPlay s pid cid (some t)).state.boardCards)) := by
  refine ⟨?_, ?_, ?_⟩
  · intro t w h1 h2 h3
    rw [abilityPlay_dealDamage_ct s pid cid c (some t) hc htag hct,
      boardGetCard_mine s pid t w h1 h2 h3]
  · intro t h1
    rw [abilityPlay_dealDamage_ct s pid cid c (some t) hc htag hct,
      boardGetCard_not_on_board s pid t h1]
    exact boardAttack_card_unresolved _ cid t h1
  · intro t vc hnd hnp hb hvt hne
    have hres : abilityPlay s pid cid (some t) =
        boardAttack (updStore s cid { c with canAttack := true }) cid (.cardId t) := by
      rw [abilityPlay_dealDamage_ct s pid cid c (some t) hc htag hct,
        boardGetCard_not_mine s pid t hnp]
    have ha : lookupCard (updStore s cid { c with canAttack := true }).cards cid
        = some { c with canAttack := true } := by
      simp [updStore, lookupCard_updateCard]
    have hv1 : lookupCard (updStore s cid { c with canAttack := true }).cards t
        = some vc := by
      simp [updStore, lookupCard_updateCard, hne, hvt]
    have hok : ({ c with canAttack := true } : Card).kind = .spell ∨
        (({ c with canAttack := true } : Card).kind = .minion ∧
          ({ c with canAttack := true } : Card).canAttack = true) := by
      cases hck : c.kind with
      | minion => exact Or.inr ⟨rfl, rfl⟩
      | spell => exact Or.inl rfl
    have H := attack_sole_victim (updStore s cid { c with canAttack := true }) cid t
      { c with canAttack := true } vc hnd ha hv1 hne hb hok
    rw [hres]
    obtain ⟨H1, H2, H3, H4, H5, H6⟩ := H
    refine ⟨H1, H2, ?_, H4, H5, H6⟩
    intro j hj1 hj2
    obtain ⟨Ha, Hb⟩ := H3 j hj1 hj2
    refine ⟨?_, Hb⟩
    rw [Ha]
    simp [updStore, lookupCard_updateCard, hj2]

/-- A started two-player game with a friendly unit 10 (player 0), an
enemy unit 20 (player 1), and the targeted-`DealDamage` spell 12 in
player 0's hand. -/
def dealTargetFull : GameState :=
  ⟨[(10, ⟨10, 1, .minion, 1, 3, false, false, ⟨.base, 0, false⟩⟩),
    (20, ⟨20, 1, .minion, 1, 3, false, false, ⟨.base, 0, false⟩⟩),
    (12, ⟨12, 0, .spell, 3, 0, false, false, ⟨.dealDamage, 3, true⟩⟩)],
   [⟨0, 20, 5, 0, ⟨[], 0⟩, [12], []⟩, ⟨1, 20, 5, 0, ⟨[], 0⟩, [], []⟩],
   [(0, [10]), (1, [20])], [10, 20], 1, true⟩

/-- C2 (witness for the amended theorem). -/
theorem C2_dealDamage_target_witness :
    abilityPlay dealTargetFull 0 12 (some 10) = .err .invalidTarget dealTargetFull ∧
    abilityPlay dealTargetFull 0 12 (some 99) =
      .err .missingCard
        (updStore dealTargetFull 12 ⟨12, 0, .spell, 3, 0, true, false, ⟨.dealDamage, 3, true⟩⟩) ∧
    (abilityPlay dealTargetFull 0 12 (some 20)).error? = none := by
  obtain ⟨A, B, C⟩ := C2_dealDamage_target dealTargetFull 0 12
    ⟨12, 0, .spell, 3, 0, false, false, ⟨.dealDamage, 3, true⟩⟩ rfl rfl rfl
  exact ⟨A 10 ⟨10, 1, .minion, 1, 3, false, false, ⟨.base, 0, false⟩⟩
      (by decide) (by decide) rfl,
    B 99 (by decide),
    (C 20 ⟨20, 1, .minion, 1, 3, false, false, ⟨.base, 0, false⟩⟩
      (by decide) (by decide) (by decide) rfl (by decide)).1⟩

/-! ## C6: attack resolution -/

theorem find?_update_list (l : List Player) (pid : Nat) (p1 : Player) (hid : p1.id = pid) :
    ((l.map fun p => if p.id = pid then p1 else p).find? fun p => p.id = pid) =
      (l.find? fun p => p.id = pid).map fun _ => p1 := by
  induction l with
  | nil => rfl
  | cons q t ih =>
    by_cases hq : q.id = pid
    · simp [hq, hid]
    · simp [hq, ih]

theorem getPlayer_updatePlayer_const (s : GameState) (pid : Nat) (p1 : Player)
    (hid : p1.id = pid) :
    (s.updatePlayer pid (fun _ => p1)).getPlayer pid = (s.getPlayer pid).map (fun _ => p1) :=
  find?_update_list s.players pid p1 hid

theorem removeAll_players (s : GameState) (ids : List Nat) :
    (removeAll s ids).players = s.players := by
  induction ids generalizing s with
  | nil => rfl
  | cons i t ih => rw [removeAll_cons, ih]; rfl

theorem removeAll_cards (s : GameState) (ids : List Nat) :
    (removeAll s ids).cards = s.cards := by
  induction ids generalizing s with
  | nil => rfl
  | cons i t ih => rw [removeAll_cons, ih]; rfl

/-- `MinionCard.attack` against a `Player` victim who survives: the
attacker's `can_attack` is cleared, the player loses the attacker's
damage, and the retaliation step reads `getattr(victim, 'damage', 0) = 0`
(still passing the attacker's unchanged health through its own setter). -/
theorem cardAttack_minion_player (s : GameState) (aid hpid : Nat) (a : Card) (p : Player)
    (ha : lookupCard s.cards aid = some a) (hk : a.kind = .minion)
    (hca : a.canAttack = true) (hp : s.getPlayer hpid = some p)
    (hlive : 0 < p.health - a.damage) :
    cardAttack s aid (.player hpid) =
      .ok (if a.health ≤ 0 then [aid] else [])
        (updStore
          ((updStore s aid { a with canAttack := false }).updatePlayer hpid
            (fun _ => { p with health := p.health - a.damage }))
          aid { a with canAttack := false, health := max 0 a.health }) := by
  have hp2 : s.players.find? (fun q => q.id = hpid) = some p := hp
  have hnle : ¬p.health ≤ a.damage := by omega
  rcases le_or_lt a.health 0 with hh | hh
  · simp [cardAttack, ha, hk, hca, playerHealthSub, GameState.getPlayer, hp2,
      Player.setHealth, not_le.mpr hlive, hnle, updStore, lookupCard_updateCard,
      minionSetHealth, hh, sub_zero, GameState.updatePlayer]
  · simp [cardAttack, ha, hk, hca, playerHealthSub, GameState.getPlayer, hp2,
      Player.setHealth, not_le.mpr hlive, hnle, updStore, lookupCard_updateCard,
      minionSetHealth, not_le.mpr hh, sub_zero, GameState.updatePlayer]

theorem cardAttack_cannot (s : GameState) (aid : Nat) (a : Card) (v : RVictim)
    (ha : lookupCard s.cards aid = some a) (hk : a.kind = .minion)
    (hca : a.canAttack = false) :
    cardAttack s aid v = .err .cardCannotAttack s := by
  cases v <;> simp [cardAttack, ha, hk, hca]

/-- `Board.attack` with a `Player` victim: the id-resolution step is
skipped (a `Player` is not a card id), so the attack runs directly. -/
theorem boardAttack_player_resolved (s : GameState) (aid hpid : Nat) :
    boardAttack s aid (.playerT hpid) =
      match cardAttack s aid (.player hpid) with
      | .err e s1 => .err e s1
      | .ok dead s1 => .ok () (removeAll s1 dead) := rfl

/-- `AbilityCard.attack` against a `Player` victim who survives: only the
player's health changes; the spell's record is untouched and there is no
`can_attack` gate. -/
theorem cardAttack_spell_player (s : GameState) (aid hpid : Nat) (a : Card) (p : Player)
    (ha : lookupCard s.cards aid = some a) (hk : a.kind = .spell)
    (hp : s.getPlayer hpid = some p)
    (hlive : 0 < p.health - a.damage) :
    cardAttack s aid (.player hpid) =
      .ok [] (s.updatePlayer hpid (fun _ => { p with health := p.health - a.damage })) := by
  have hp2 : s.players.find? (fun q => q.id = hpid) = some p := hp
  have hnle : ¬p.health ≤ a.damage := by omega
  simp [cardAttack, ha, hk, playerHealthSub, GameState.getPlayer, hp2,
    Player.setHealth, not_le.mpr hlive, hnle, GameState.updatePlayer]

/-- C6: attack resolution, against a board unit or against a hero.  A
minion attacker with `can_attack = false` fails with `CardCannotAttack`
leaving the state unchanged, whoever the victim is.  Otherwise the
attacker's `can_attack` is cleared, the victim — unit or hero — loses the
attacker's damage and, in unit-vs-unit combat only, the attacker loses
the victim's damage in retaliation; against a hero the attacker takes no
retaliation and its health is unchanged.  Each unit whose health is
thereby exhausted is removed from play by the board.  A spell attacker
damages the victim — unit or hero — without its own record being touched
at all (no retaliation, no `can_attack` gate). -/
theorem C6_attack_resolution (s : GameState) (aid vid : Nat) (a vc : Card)
    (ha : lookupCard s.cards aid = some a)
    (hv : lookupCard s.cards vid = some vc)
    (hb : vid ∈ s.boardCards)
    (hne : vid ≠ aid) (hnd : s.boardCards.Nodup) :
    (a.kind = .minion → a.canAttack = false →
      boardAttack s aid (.cardId vid) = .err .cardCannotAttack s) ∧
    (a.kind = .minion → a.canAttack = true →
      (boardAttack s aid (.cardId vid)).error? = none ∧
      lookupCard (boardAttack s aid (.cardId vid)).state.cards aid =
        some { a with canAttack := false, health := max 0 (a.health - vc.damage) } ∧
      lookupCard (boardAttack s aid (.cardId vid)).state.cards vid =
        some { vc with health := max 0 (vc.health - a.damage) } ∧
      (vc.health - a.damage ≤ 0 →
        vid ∉ (boardAttack s aid (.cardId vid)).state.boardCards) ∧
      (0 < vc.health - a.damage →
        vid ∈ (boardAttack s aid (.cardId vid)).state.boardCards) ∧
      (a.health - vc.damage ≤ 0 →
        aid ∉ (boardAttack s aid (.cardId vid)).state.boardCards) ∧
      (aid ∈ s.boardCards → 0 < a.health - vc.damage →
        aid ∈ (boardAttack s aid (.cardId vid)).state.boardCards)) ∧
    (a.kind = .spell →
      (boardAttack s aid (.cardId vid)).error? = none ∧
      lookupCard (boardAttack s aid (.cardId vid)).state.cards vid =
        some { vc with health := max 0 (vc.health - a.damage) } ∧
      lookupCard (boardAttack s aid (.cardId vid)).state.cards aid
        = lookupCard s.cards aid ∧
      (vc.health - a.damage ≤ 0 →
        vid ∉ (boardAttack s aid (.cardId vid)).state.boardCards) ∧
      (0 < vc.health - a.damage →
        vid ∈ (boardAttack s aid (.cardId vid)).state.boardCards)) ∧
    (∀ hpid p, s.getPlayer hpid = some p → a.damage < p.health →
      (a.kind = .minion → a.canAttack = false →
        boardAttack s aid (.playerT hpid) = .err .cardCannotAttack s) ∧
      (a.kind = .minion → a.canAttack = true →
        (boardAttack s aid (.playerT hpid)).error? = none ∧
        ((boardAttack s aid (.playerT hpid)).state.getPlayer hpid).map Player.health
          = some (p.health - a.damage) ∧
        lookupCard (boardAttack s aid (.playerT hpid)).state.cards aid =
          some { a with canAttack := false, health := max 0 a.health } ∧
        (0 < a.health →
          lookupCard (boardAttack s aid (.playerT hpid)).state.cards aid =
            some { a with canAttack := false }) ∧
        (a.health ≤ 0 →
          aid ∉ (boardAttack s aid (.playerT hpid)).state.boardCards) ∧
        (aid ∈ s.boardCards → 0 < a.health →
          aid ∈ (boardAttack s aid (.playerT hpid)).state.boardCards)) ∧
      (a.kind = .spell →
        (boardAttack s aid (.playerT hpid)).error? = none ∧
        ((boardAttack s aid (.playerT hpid)).state.getPlayer hpid).map Player.health
          = some (p.health - a.damage) ∧
        lookupCard (boardAttack s aid (.playerT hpid)).state.cards aid
          = lookupCard s.cards aid)) := by
  have hres := boardAttack_card_resolved s aid vid hb (by simp [hv])
  refine ⟨?_, ?_, ?_, ?_⟩
  · intro hk hca
    rw [hres, cardAttack_cannot s aid a (.card vid) ha hk hca]
  · intro hk hca
    rw [cardAttack_minion_card s aid vid a vc ha hk hca hne hv] at hres
    rcases le_or_lt (vc.health - a.damage) 0 with hd | hd <;>
      rcases le_or_lt (a.health - vc.damage) 0 with hr | hr
    · rw [if_pos hd, if_pos hr] at hres
      simp only [List.cons_append, List.nil_append, removeAll_cons, removeAll_nil] at hres
      rw [hres]
      refine ⟨rfl, ?_, ?_, ?_, ?_, ?_, ?_⟩
      · simp [PRes.state, updStore, lookupCard_updateCard]
      · simp [PRes.state, updStore, lookupCard_updateCard, hne]
      · intro h
        simp only [PRes.state, removeCard_boardCards, updStore_boardCards]
        intro hmem
        have h2 : vid ∈ s.boardCards.erase vid := List.erase_subset _ _ hmem
        simp [List.Nodup.mem_erase_iff hnd] at h2
      · intro h0
        omega
      · intro h
        simp only [PRes.state, removeCard_boardCards, updStore_boardCards]
        rw [List.Nodup.mem_erase_iff (hnd.erase vid)]
        simp
      · intro hab h0
        omega
    · rw [if_pos hd, if_neg (not_le.mpr hr)] at hres
      simp only [List.cons_append, List.nil_append, List.append_nil,
        removeAll_cons, removeAll_nil] at hres
      rw [hres]
      refine ⟨rfl, ?_, ?_, ?_, ?_, ?_, ?_⟩
      · simp [PRes.state, updStore, lookupCard_updateCard]
      · simp [PRes.state, updStore, lookupCard_updateCard, hne]
      · intro h
        simp [PRes.state, List.Nodup.mem_erase_iff hnd]
      · intro h0
        omega
      · intro h
        omega
      · intro hab h0
        simp only [PRes.state, removeCard_boardCards, updStore_boardCards]
        rw [List.mem_erase_of_ne (Ne.symm hne)]
        exact hab
    · rw [if_neg (not_le.mpr hd), if_pos hr] at hres
      simp only [List.nil_append, removeAll_cons, removeAll_nil] at hres
      rw [hres]
      refine ⟨rfl, ?_, ?_, ?_, ?_, ?_, ?_⟩
      · simp [PRes.state, updStore, lookupCard_updateCard]
      · simp [PRes.state, updStore, lookupCard_updateCard, hne]
      · intro h
        omega
      · intro h0
        simp only [PRes.state, removeCard_boardCards, updStore_boardCards]
        rw [List.mem_erase_of_ne hne]
        exact hb
      · intro h
        simp [PRes.state, List.Nodup.mem_erase_iff hnd]
      · intro hab h0
        omega
    · rw [if_neg (not_le.mpr hd), if_neg (not_le.mpr hr)] at hres
      simp only [List.append_nil, removeAll_nil] at hres
      rw [hres]
      refine ⟨rfl, ?_, ?_, ?_, ?_, ?_, ?_⟩
      · simp [PRes.state, updStore, lookupCard_updateCard]
      · simp [PRes.state, updStore, lookupCard_updateCard, hne]
      · intro h
        omega
      · intro h0
        exact hb
      · intro h
        omega
      · intro hab h0
        exact hab
  · intro hk
    rw [cardAttack_spell_card s aid vid a vc ha hk hv] at hres
    rcases le_or_lt (vc.health - a.damage) 0 with hd | hd
    · rw [if_pos hd] at hres
      simp only [removeAll_cons, removeAll_nil] at hres
      rw [hres]
      refine ⟨rfl, ?_, ?_, ?_, ?_⟩
      · simp [PRes.state, updStore, lookupCard_updateCard]
      · simp [PRes.state, updStore, lookupCard_updateCard, Ne.symm hne]
      · intro h
        simp [PRes.state, List.Nodup.mem_erase_iff hnd]
      · intro h0
        omega
    · rw [if_neg (not_le.mpr hd)] at hres
      simp only [removeAll_nil] at hres
      rw [hres]
      refine ⟨rfl, ?_, ?_, ?_, ?_⟩
      · simp [PRes.state, updStore, lookupCard_updateCard]
      · simp [PRes.state, updStore, lookupCard_updateCard, Ne.symm hne]
      · intro h
        omega
      · intro h0
        exact hb
  · intro hpid p hp hlive
    have hid : p.id = hpid := by
      have := List.find?_some hp
      simpa using this
    refine ⟨?_, ?_, ?_⟩
    · intro hk hca
      rw [boardAttack_player_resolved, cardAttack_cannot s aid a (.player hpid) ha hk hca]
    · intro hk hca
      have hatk := cardAttack_minion_player s aid hpid a p ha hk hca hp (by omega)
      have hres2 : boardAttack s aid (.playerT hpid) =
          .ok ()
            (removeAll
              (updStore
                ((updStore s aid { a with canAttack := false }).updatePlayer hpid
                  (fun _ => { p with health := p.health - a.damage }))
                aid { a with canAttack := false, health := max 0 a.health })
              (if a.health ≤ 0 then [aid] else [])) := by
        rw [boardAttack_player_resolved, hatk]
      rw [hres2]
      refine ⟨rfl, ?_, ?_, ?_, ?_, ?_⟩
      · show ((removeAll _ _).getPlayer hpid).map Player.health = _
        rw [show ∀ t : GameState, t.getPlayer hpid = t.players.find? (fun q => q.id = hpid)
            from fun t => rfl] at *
        rw [removeAll_players]
        have hup := getPlayer_updatePlayer_const
          (updStore s aid { a with canAttack := false }) hpid
          { p with health := p.health - a.damage } hid
        have hgp : (updStore s aid { a with canAttack := false }).getPlayer hpid = some p := hp
        rw [show ((updStore
            ((updStore s aid { a with canAttack := false }).updatePlayer hpid
              (fun _ => { p with health := p.health - a.damage }))
            aid { a with canAttack := false, health := max 0 a.health }).players.find?
              (fun q => q.id = hpid))
            = ((updStore s aid { a with canAttack := false }).updatePlayer hpid
              (fun _ => { p with health := p.health - a.damage })).getPlayer hpid from rfl]
        rw [hup, hgp]
        rfl
      · simp only [PRes.state]
        rw [removeAll_cards]
        exact lookupCard_updateCard_self _ _ _
      · intro hh
        have hmax : max 0 a.health = a.health := by omega
        simp only [PRes.state]
        rw [removeAll_cards, updStore_cards, lookupCard_updateCard_self, hmax]
      · intro hh
        simp only [PRes.state]
        rw [if_pos hh]
        simp [GameState.updatePlayer, List.Nodup.mem_erase_iff hnd]
      · intro hab hh
        simp only [PRes.state]
        rw [if_neg (by omega : ¬a.health ≤ 0)]
        simpa [GameState.updatePlayer] using hab
    · intro hk
      have hatk := cardAttack_spell_player s aid hpid a p ha hk hp (by omega)
      have hres2 : boardAttack s aid (.playerT hpid) =
          .ok () (removeAll
            (s.updatePlayer hpid (fun _ => { p with health := p.health - a.damage })) []) := by
        rw [boardAttack_player_resolved, hatk]
      rw [hres2]
      refine ⟨rfl, ?_, ?_⟩
      · simp only [PRes.state, removeAll_nil]
        have hup := getPlayer_updatePlayer_const s hpid
          { p with health := p.health - a.damage } hid
        rw [hup, hp]
        rfl
      · simp only [PRes.state, removeAll_nil]
        rfl

/-- A started two-player game: player 0 controls the ready minion 30
(2 damage, 5 health) and holds the untargeted `DealDamage` spell 50
(damage 4); player 1 controls the exhausted minion 40 (1 damage,
2 health). -/
def combatState : GameState :=
  ⟨[(30, ⟨30, 1, .minion, 2, 5, true, true, ⟨.base, 0, false⟩⟩),
    (40, ⟨40, 1, .minion, 1, 2, false, true, ⟨.base, 0, false⟩⟩),
    (50, ⟨50, 2, .spell, 4, 0, false, true, ⟨.dealDamage, 4, false⟩⟩)],
   [⟨0, 20, 5, 0, ⟨[], 0⟩, [], []⟩, ⟨1, 20, 5, 0, ⟨[], 0⟩, [], []⟩],
   [(0, [30]), (1, [40])], [30, 40], 1, true⟩

/-- C6 (witness): gate, unit-vs-unit combat with retaliation and death,
spell attack on a unit, and attacks on a hero by a gated minion, a ready
minion (no retaliation) and a spell. -/
theorem C6_attack_resolution_witness :
    boardAttack combatState 40 (.cardId 30) = .err .cardCannotAttack combatState ∧
    (boardAttack combatState 30 (.cardId 40)).error? = none ∧
    lookupCard (boardAttack combatState 30 (.cardId 40)).state.cards 30 =
      some ⟨30, 1, .minion, 2, 4, false, true, ⟨.base, 0, false⟩⟩ ∧
    (40 ∉ (boardAttack combatState 30 (.cardId 40)).state.boardCards) ∧
    (boardAttack combatState 50 (.cardId 40)).error? = none ∧
    lookupCard (boardAttack combatState 50 (.cardId 40)).state.cards 50
      = lookupCard combatState.cards 50 ∧
    boardAttack combatState 40 (.playerT 0) = .err .cardCannotAttack combatState ∧
    (boardAttack combatState 30 (.playerT 1)).error? = none ∧
    ((boardAttack combatState 30 (.playerT 1)).state.getPlayer 1).map Player.health
      = some (20 - 2) ∧
    lookupCard (boardAttack combatState 30 (.playerT 1)).state.cards 30 =
      some ⟨30, 1, .minion, 2, 5, false, true, ⟨.base, 0, false⟩⟩ ∧
    (boardAttack combatState 50 (.playerT 1)).error? = none ∧
    ((boardAttack combatState 50 (.playerT 1)).state.getPlayer 1).map Player.health
      = some (20 - 4) ∧
    lookupCard (boardAttack combatState 50 (.playerT 1)).state.cards 50
      = lookupCard combatState.cards 50 := by
  have H1 := (C6_attack_resolution combatState 40 30
    ⟨40, 1, .minion, 1, 2, false, true, ⟨.base, 0, false⟩⟩
    ⟨30, 1, .minion, 2, 5, true, true, ⟨.base, 0, false⟩⟩
    rfl rfl (by decide) (by decide) (by decide)).1 rfl rfl
  have H2 := (C6_attack_resolution combatState 30 40
    ⟨30, 1, .minion, 2, 5, true, true, ⟨.base, 0, false⟩⟩
    ⟨40, 1, .minion, 1, 2, false, true, ⟨.base, 0, false⟩⟩
    rfl rfl (by decide) (by decide) (by decide)).2.1 rfl rfl
  have H3 := (C6_attack_resolution combatState 50 40
    ⟨50, 2, .spell, 4, 0, false, true, ⟨.dealDamage, 4, false⟩⟩
    ⟨40, 1, .minion, 1, 2, false, true, ⟨.base, 0, false⟩⟩
    rfl rfl (by decide) (by decide) (by decide)).2.2.1 rfl
  have H4 := ((C6_attack_resolution combatState 40 30
    ⟨40, 1, .minion, 1, 2, false, true, ⟨.base, 0, false⟩⟩
    ⟨30, 1, .minion, 2, 5, true, true, ⟨.base, 0, false⟩⟩
    rfl rfl (by decide) (by decide) (by decide)).2.2.2 0
    ⟨0, 20, 5, 0, ⟨[], 0⟩, [], []⟩ rfl (by decide)).1 rfl rfl
  have H5 := ((C6_attack_resolution combatState 30 40
    ⟨30, 1, .minion, 2, 5, true, true, ⟨.base, 0, false⟩⟩
    ⟨40, 1, .minion, 1, 2, false, true, ⟨.base, 0, false⟩⟩
    rfl rfl (by decide) (by decide) (by decide)).2.2.2 1
    ⟨1, 20, 5, 0, ⟨[], 0⟩, [], []⟩ rfl (by decide)).2.1 rfl rfl
  have H6 := ((C6_attack_resolution combatState 50 40
    ⟨50, 2, .spell, 4, 0, false, true, ⟨.dealDamage, 4, false⟩⟩
    ⟨40, 1, .minion, 1, 2, false, true, ⟨.base, 0, false⟩⟩
    rfl rfl (by decide) (by decide) (by decide)).2.2.2 1
    ⟨1, 20, 5, 0, ⟨[], 0⟩, [], []⟩ rfl (by decide)).2.2 rfl
  exact ⟨H1, H2.1, H2.2.1, H2.2.2.2.1 (by decide), H3.1, H3.2.2.1,
    H4, H5.1, H5.2.1, H5.2.2.2.1 (by decide), H6.1, H6.2.1, H6.2.2⟩

/-! ## C10: `Game.attack` never checks that the victim is an enemy -/

theorem gameAttack_unfold (s : GameState) (pid aid vid : Nat) (a : Card)
    (hstart : s.started = true) (hpid : pid = s.currentPlayer.id)
    (hmine : aid ∈ s.playerSet s.currentPlayer.id) (hab : aid ∈ s.boardCards)
    (ha : lookupCard s.cards aid = some a) :
    gameAttack s pid aid vid =
      boardAttack s aid
        (if vid ∈ s.players.map Player.id then .playerT vid else .cardId vid) := by
  subst hpid
  simp [gameAttack, checkState, hstart, boardGetCard_mine s _ aid a hmine hab ha]

/-- C10: `Game.attack` performs no friendly-fire check: with the caller's
own ready unit as attacker, naming the caller's own hero or one of the
caller's own units as the victim is accepted — no error of the
`InvalidAction` family (indeed no error at all while the victim survives)
— and the friendly victim's health drops by the attacker's damage. -/
theorem C10_friendly_fire (s : GameState) (pid aid : Nat) (a : Card)
    (hstart : s.started = true)
    (hpid : pid = s.currentPlayer.id)
    (hmine : aid ∈ s.playerSet s.currentPlayer.id)
    (hab : aid ∈ s.boardCards)
    (ha : lookupCard s.cards aid = some a)
    (hk : a.kind = .minion) (hca : a.canAttack = true) :
    (∀ p, s.getPlayer pid = some p → pid ∈ s.players.map Player.id →
      a.damage < p.health →
      (gameAttack s pid aid pid).error? = none ∧
      ((gameAttack s pid aid pid).state.getPlayer pid).map Player.health
        = some (p.health - a.damage)) ∧
    (∀ vid vc, vid ∉ s.players.map Player.id → vid ∈ s.boardCards →
      lookupCard s.cards vid = some vc → vid ≠ aid → s.boardCards.Nodup →
      a.damage < vc.health →
      (gameAttack s pid aid vid).error? = none ∧
      lookupCard (gameAttack s pid aid vid).state.cards vid =
        some { vc with health := vc.health - a.damage }) := by
  constructor
  · intro p hp hpm hlive
    have hres : gameAttack s pid aid pid = boardAttack s aid (.playerT pid) := by
      rw [gameAttack_unfold s pid aid pid a hstart hpid hmine hab ha, if_pos hpm]
    have hatk := cardAttack_minion_player s aid pid a p ha hk hca hp (by omega)
    have hres2 : gameAttack s pid aid pid =
        .ok ()
          (removeAll
            (updStore
              ((updStore s aid { a with canAttack := false }).updatePlayer pid
                (fun _ => { p with health := p.health - a.damage }))
              aid { a with canAttack := false, health := max 0 a.health })
            (if a.health ≤ 0 then [aid] else [])) := by
      rw [hres]
      show (match cardAttack s aid (.player pid) with
        | PRes.err e s1 => PRes.err e s1
        | PRes.ok dead s1 => PRes.ok () (removeAll s1 dead)) = _
      rw [hatk]
    rw [hres2]
    have hid : p.id = pid := by
      have := List.find?_some hp
      simpa using this
    constructor
    · rfl
    · show ((removeAll _ _).getPlayer pid).map Player.health = _
      rw [show ∀ t : GameState, t.getPlayer pid = t.players.find? (fun q => q.id = pid)
          from fun t => rfl] at *
      rw [removeAll_players]
      have hup := getPlayer_updatePlayer_const
        (updStore s aid { a with canAttack := false }) pid
        { p with health := p.health - a.damage } hid
      have : (updStore s aid { a with canAttack := false }).getPlayer pid = some p := hp
      rw [show ((updStore
          ((updStore s aid { a with canAttack := false }).updatePlayer pid
            (fun _ => { p with health := p.health - a.damage }))
          aid { a with canAttack := false, health := max 0 a.health }).players.find?
            (fun q => q.id = pid))
          = ((updStore s aid { a with canAttack := false }).updatePlayer pid
            (fun _ => { p with health := p.health - a.damage })).getPlayer pid from rfl]
      rw [hup, this]
      rfl
  · intro vid vc hvnp hvb hvc hne hnd hlive
    have hres : gameAttack s pid aid vid = boardAttack s aid (.cardId vid) := by
      rw [gameAttack_unfold s pid aid vid a hstart hpid hmine hab ha, if_neg hvnp]
    have H := attack_sole_victim s aid vid a vc hnd ha hvc hne hvb (Or.inr ⟨hk, hca⟩)
    rw [hres]
    refine ⟨H.1, ?_⟩
    rw [H.2.1]
    congr 1
    have : max 0 (vc.health - a.damage) = vc.health - a.damage := by omega
    rw [this]

/-- A started two-player game where the current player (id 0) controls
the ready minion 30 (2 damage) and the exhausted minion 35 (4 health). -/
def friendlyFireState : GameState :=
  ⟨[(30, ⟨30, 1, .minion, 2, 5, true, true, ⟨.base, 0, false⟩⟩),
    (35, ⟨35, 1, .minion, 1, 4, false, true, ⟨.base, 0, false⟩⟩)],
   [⟨0, 20, 5, 0, ⟨[], 0⟩, [], []⟩, ⟨1, 20, 5, 0, ⟨[], 0⟩, [], []⟩],
   [(0, [30, 35]), (1, [])], [30, 35], 1, true⟩

/-- C10 (witness): attacking one's own hero and one's own unit are both
accepted and damage the friendly victim. -/
theorem C10_friendly_fire_witness :
    (gameAttack friendlyFireState 0 30 0).error? = none ∧
    ((gameAttack friendlyFireState 0 30 0).state.getPlayer 0).map Player.health
      = some (20 - 2) ∧
    (gameAttack friendlyFireState 0 30 35).error? = none ∧
    lookupCard (gameAttack friendlyFireState 0 30 35).state.cards 35 =
      some ⟨35, 1, .minion, 1, 4 - 2, false, true, ⟨.base, 0, false⟩⟩ := by
  have H := C10_friendly_fire friendlyFireState 0 30
    ⟨30, 1, .minion, 2, 5, true, true, ⟨.base, 0, false⟩⟩
    rfl rfl (by decide) (by decide) rfl rfl rfl
  have H1 := H.1 ⟨0, 20, 5, 0, ⟨[], 0⟩, [], []⟩ rfl (by decide) (by decide)
  have H2 := H.2 35 ⟨35, 1, .minion, 1, 4, false, true, ⟨.base, 0, false⟩⟩
    (by decide) (by decide) rfl (by decide) (by decide) (by decide)
  exact ⟨H1.1, H1.2, H2.1, H2.2⟩

/-! ## C5: `Game.endturn` -/

theorem find?_map_update_pres (l : List Player) (pid : Nat) (f : Player → Player)
    (hf : ∀ q, (f q).id = q.id) :
    ((l.map fun p => if p.id = pid then f p else p).find? fun p => p.id = pid) =
      (l.find? fun p => p.id = pid).map f := by
  induction l with
  | nil => rfl
  | cons q t ih =>
    by_cases hq : q.id = pid
    · simp [hq, hf q]
    · simp [hq, ih]

theorem getPlayer_updatePlayer_pres (s : GameState) (pid : Nat) (f : Player → Player)
    (hf : ∀ q, (f q).id = q.id) :
    (s.updatePlayer pid f).getPlayer pid = (s.getPlayer pid).map f :=
  find?_map_update_pres s.players pid f hf

theorem ensureKey_players (s : GameState) (pid : Nat) :
    (s.ensureKey pid).players = s.players := by
  unfold GameState.ensureKey
  cases lookupSet s.boardPlayerCards pid <;> rfl

theorem ensureKey_cards (s : GameState) (pid : Nat) :
    (s.ensureKey pid).cards = s.cards := by
  unfold GameState.ensureKey
  cases lookupSet s.boardPlayerCards pid <;> rfl

theorem ensureKey_turnCounter (s : GameState) (pid : Nat) :
    (s.ensureKey pid).turnCounter = s.turnCounter := by
  unfold GameState.ensureKey
  cases lookupSet s.boardPlayerCards pid <;> rfl

theorem ensureKey_boardCards (s : GameState) (pid : Nat) :
    (s.ensureKey pid).boardCards = s.boardCards := by
  unfold GameState.ensureKey
  cases lookupSet s.boardPlayerCards pid <;> rfl

theorem ensureKey_playerSet (s : GameState) (pid q : Nat) :
    (s.ensureKey pid).playerSet q = s.playerSet q := by
  unfold GameState.ensureKey GameState.playerSet
  cases hk : lookupSet s.boardPlayerCards pid with
  | some l => rfl
  | none =>
    by_cases hq : q = pid
    · subst hq
      simp [lookupSet_updateSet, hk]
    · simp [lookupSet_updateSet, hq]

theorem resetCardsLoop_players (s : GameState) (ids : List Nat) :
    (resetCardsLoop s ids).players = s.players := by
  induction ids generalizing s with
  | nil => rfl
  | cons i t ih =>
    unfold resetCardsLoop
    cases lookupCard s.cards i <;> simp [ih]

theorem resetCardsLoop_turnCounter (s : GameState) (ids : List Nat) :
    (resetCardsLoop s ids).turnCounter = s.turnCounter := by
  induction ids generalizing s with
  | nil => rfl
  | cons i t ih =>
    unfold resetCardsLoop
    cases lookupCard s.cards i <;> simp [ih]

theorem resetCardsLoop_boardPlayerCards (s : GameState) (ids : List Nat) :
    (resetCardsLoop s ids).boardPlayerCards = s.boardPlayerCards := by
  induction ids generalizing s with
  | nil => rfl
  | cons i t ih =>
    unfold resetCardsLoop
    cases lookupCard s.cards i <;> simp [ih]

theorem resetCardsLoop_boardCards (s : GameState) (ids : List Nat) :
    (resetCardsLoop s ids).boardCards = s.boardCards := by
  induction ids generalizing s with
  | nil => rfl
  | cons i t ih =>
    unfold resetCardsLoop
    cases lookupCard s.cards i <;> simp [ih]

theorem resetCardsLoop_lookup_not_mem (s : GameState) (ids : List Nat) (i : Nat)
    (h : i ∉ ids) :
    lookupCard (resetCardsLoop s ids).cards i = lookupCard s.cards i := by
  induction ids generalizing s with
  | nil => rfl
  | cons j t ih =>
    have hij : i ≠ j := fun he => h (he ▸ List.mem_cons_self j t)
    have hit : i ∉ t := fun he => h (List.mem_cons_of_mem j he)
    unfold resetCardsLoop
    cases hj : lookupCard s.cards j with
    | none => exact ih s hit
    | some c =>
      rw [ih _ hit]
      simp [updStore, lookupCard_updateCard, hij]

theorem resetCardsLoop_mem_canAttack (s : GameState) (ids : List Nat) (i : Nat)
    (h : i ∈ ids) (c : Card)
    (hl : lookupCard (resetCardsLoop s ids).cards i = some c) : c.canAttack = true := by
  induction ids generalizing s with
  | nil => cases h
  | cons j t ih =>
    by_cases hit : i ∈ t
    · unfold resetCardsLoop at hl
      cases hj : lookupCard s.cards j with
      | none =>
        rw [hj] at hl
        exact ih _ hit hl
      | some d =>
        rw [hj] at hl
        exact ih _ hit hl
    · have hij : i = j := by
        rcases List.mem_cons.mp h with he | he
        · exact he
        · exact absurd he hit
      subst hij
      unfold resetCardsLoop at hl
      cases hj : lookupCard s.cards i with
      | none =>
        rw [hj] at hl
        rw [resetCardsLoop_lookup_not_mem _ _ _ hit, hj] at hl
        cases hl
      | some d =>
        rw [hj] at hl
        rw [resetCardsLoop_lookup_not_mem _ _ _ hit] at hl
        simp [updStore, lookupCard_updateCard] at hl
        rw [← hl]

theorem boardResetCards_players (s : GameState) (pid : Nat) :
    (boardResetCards s pid).players = s.players := by
  unfold boardResetCards
  rw [resetCardsLoop_players, ensureKey_players]

theorem boardResetCards_turnCounter (s : GameState) (pid : Nat) :
    (boardResetCards s pid).turnCounter = s.turnCounter := by
  unfold boardResetCards
  rw [resetCardsLoop_turnCounter, ensureKey_turnCounter]

theorem boardResetCards_playerSet (s : GameState) (pid q : Nat) :
    (boardResetCards s pid).playerSet q = s.playerSet q := by
  unfold boardResetCards
  show ((lookupSet (resetCardsLoop _ _).boardPlayerCards q).getD []) = _
  rw [resetCardsLoop_boardPlayerCards]
  exact ensureKey_playerSet s pid q

theorem boardResetCards_boardCards (s : GameState) (pid : Nat) :
    (boardResetCards s pid).boardCards = s.boardCards := by
  unfold boardResetCards
  rw [resetCardsLoop_boardCards, ensureKey_boardCards]

theorem boardResetCards_canAttack (s : GameState) (pid i : Nat)
    (h : i ∈ s.playerSet pid) (c : Card)
    (hl : lookupCard (boardResetCards s pid).cards i = some c) : c.canAttack = true := by
  unfold boardResetCards at hl
  rw [ensureKey_playerSet] at hl
  exact resetCardsLoop_mem_canAttack _ _ _ h c hl

theorem find?_map_set (l : List Player) (pid : Nat) (f : Player → Player) (p : Player)
    (hgp : (l.find? fun q => q.id = pid) = some p) (hid : (f p).id = pid) :
    ((l.map fun q => if q.id = pid then f q else q).find? fun q => q.id = pid)
      = some (f p) := by
  induction l with
  | nil => cases hgp
  | cons q t ih =>
    by_cases hq : q.id = pid
    · have hfind : (List.find? (fun r => r.id = pid) (q :: t)) = some q := by
        simp [List.find?_cons_of_pos, hq]
      rw [hfind] at hgp
      obtain rfl : p = q := (Option.some.inj hgp).symm
      simp [hq, hid]
    · have h1 : (List.find? (fun r => r.id = pid) (q :: t))
          = List.find? (fun r => r.id = pid) t := by
        simp [List.find?_cons_of_neg, hq]
      rw [h1] at hgp
      simp [hq, ih hgp]

theorem getPlayer_after_set (s : GameState) (pid : Nat) (f : Player → Player) (p : Player)
    (hgp : s.getPlayer pid = some p) (hid : (f p).id = pid) :
    (s.updatePlayer pid f).getPlayer pid = some (f p) :=
  find?_map_set s.players pid f p hgp hid

/-- C5: `endturn(player_id)` raises `GameNotStarted` before the game has
started and `InvalidPlayerTurn` when `player_id` is not the current
player's id, both leaving the state unchanged; otherwise it increments
the turn by one, sets `can_attack = true` on every unit of the incoming
player, gives the incoming player `current_mana = min(current_mana+1,10)`
and `used_mana = 0`, and has them draw one card: a non-empty deck loses
its front card into the hand; an empty deck increments the fatigue
counter and deals that much damage, raising `DeadPlayer` when it kills. -/
theorem C5_endturn (s : GameState) (pid : Nat) :
    (s.started = false → gameEndturn s pid = .err .gameNotStarted s) ∧
    (s.started = true → pid ≠ s.currentPlayer.id →
      gameEndturn s pid = .err .invalidPlayerTurn s) ∧
    (s.started = true → pid = s.currentPlayer.id → 1 ≤ s.turnCounter →
      s.getPlayer s.nextPlayer.id = some s.nextPlayer →
      (gameEndturn s pid).state.turnCounter = s.turnCounter + 1 ∧
      (∀ i ∈ s.playerSet s.nextPlayer.id, ∀ c,
        lookupCard (gameEndturn s pid).state.cards i = some c → c.canAttack = true) ∧
      (∃ pAfter, (gameEndturn s pid).state.getPlayer s.nextPlayer.id = some pAfter ∧
        pAfter.currentMana = min (s.nextPlayer.currentMana + 1) 10 ∧
        pAfter.usedMana = 0 ∧
        pAfter.deck.cards = s.nextPlayer.deck.cards.drop 1 ∧
        (s.nextPlayer.deck.cards ≠ [] →
          (gameEndturn s pid).error? = none ∧
          pAfter.hand = s.nextPlayer.hand ++ s.nextPlayer.deck.cards.take 1 ∧
          pAfter.health = s.nextPlayer.health ∧
          pAfter.deck.emptyCard = s.nextPlayer.deck.emptyCard) ∧
        (s.nextPlayer.deck.cards = [] →
          pAfter.hand = s.nextPlayer.hand ∧
          pAfter.deck.emptyCard = s.nextPlayer.deck.emptyCard + 1 ∧
          ((0 < s.nextPlayer.health - (s.nextPlayer.deck.emptyCard + 1) ∧
            (gameEndturn s pid).error? = none ∧
            pAfter.health = s.nextPlayer.health - (s.nextPlayer.deck.emptyCard + 1)) ∨
           (s.nextPlayer.health - (s.nextPlayer.deck.emptyCard + 1) ≤ 0 ∧
            (gameEndturn s pid).error? = some (.deadPlayer s.nextPlayer.id) ∧
            pAfter.health = 0))))) := by
  refine ⟨?_, ?_, ?_⟩
  · intro h
    unfold gameEndturn
    simp [checkState, h]
  · intro h1 h2
    unfold gameEndturn
    simp [checkState, h1, h2]
  · intro hstart hpid hturn hinc
    have hcheck : checkState s pid = none := by simp [checkState, hstart, hpid]
    have hcur1 : ({ s with turnCounter := s.turnCounter + 1 } : GameState).currentPlayer
        = s.nextPlayer := by
      unfold GameState.currentPlayer GameState.nextPlayer GameState.turn
      have e1 : max (s.turnCounter + 1) 1 = s.turnCounter + 1 := Nat.max_eq_left (by omega)
      have e2 : max s.turnCounter 1 = s.turnCounter := Nat.max_eq_left hturn
      simp only [e1, e2, Nat.add_sub_cancel]
    have hgp2 : (boardResetCards { s with turnCounter := s.turnCounter + 1 }
        s.nextPlayer.id).getPlayer s.nextPlayer.id = some s.nextPlayer := by
      show ((boardResetCards { s with turnCounter := s.turnCounter + 1 }
        s.nextPlayer.id).players.find? fun p => p.id = s.nextPlayer.id) = _
      rw [boardResetCards_players]
      exact hinc
    have hgp3 : ((boardResetCards { s with turnCounter := s.turnCounter + 1 }
        s.nextPlayer.id).updatePlayer s.nextPlayer.id
        (fun p =>
          { p with currentMana := min (p.currentMana + 1) 10, usedMana := 0 })).getPlayer
        s.nextPlayer.id
        = some { s.nextPlayer with
                 currentMana := min (s.nextPlayer.currentMana + 1) 10, usedMana := 0 } := by
      exact getPlayer_after_set _ _ _ _ hgp2 rfl
    have hres : gameEndturn s pid =
        (match ({ s.nextPlayer with
            currentMana := min (s.nextPlayer.currentMana + 1) 10,
            usedMana := 0 } : Player).takeCards 1 with
         | (p1, some e) =>
             .err e (((boardResetCards { s with turnCounter := s.turnCounter + 1 }
               s.nextPlayer.id).updatePlayer s.nextPlayer.id
               (fun p =>
                 { p with currentMana := min (p.currentMana + 1) 10,
                          usedMana := 0 })).updatePlayer s.nextPlayer.id (fun _ => p1))
         | (p1, none) =>
             .ok () (((boardResetCards { s with turnCounter := s.turnCounter + 1 }
               s.nextPlayer.id).updatePlayer s.nextPlayer.id
               (fun p =>
                 { p with currentMana := min (p.currentMana + 1) 10,
                          usedMana := 0 })).updatePlayer s.nextPlayer.id (fun _ => p1))) := by
      unfold gameEndturn
      rw [hcheck]
      dsimp only
      rw [hcur1, hgp3]
    constructor
    · -- turn counter
      rw [hres]
      rcases htc : ({ s.nextPlayer with
          currentMana := min (s.nextPlayer.currentMana + 1) 10,
          usedMana := 0 } : Player).takeCards 1 with ⟨p1, e⟩
      cases e <;>
        simp [PRes.state, GameState.updatePlayer, boardResetCards_turnCounter]
    constructor
    · -- can_attack reset
      intro i hi c hc
      rw [hres] at hc
      rcases htc : ({ s.nextPlayer with
          currentMana := min (s.nextPlayer.currentMana + 1) 10,
          usedMana := 0 } : Player).takeCards 1 with ⟨p1, e⟩
      rw [htc] at hc
      have hps : ({ s with turnCounter := s.turnCounter + 1 } : GameState).playerSet
          s.nextPlayer.id = s.playerSet s.nextPlayer.id := rfl
      cases e with
      | none =>
        refine boardResetCards_canAttack { s with turnCounter := s.turnCounter + 1 }
          s.nextPlayer.id i (by rw [hps]; exact hi) c ?_
        exact hc
      | some e1 =>
        refine boardResetCards_canAttack { s with turnCounter := s.turnCounter + 1 }
          s.nextPlayer.id i (by rw [hps]; exact hi) c ?_
        exact hc
    · -- the incoming player's record
      rcases hdk : s.nextPlayer.deck.cards with _ | ⟨c0, rest⟩
      · -- empty deck: fatigue
        have hdeal : (Deck.deal { s.nextPlayer.deck with cards := ([] : List Nat) } 1) =
            (.error (.emptyDeck (s.nextPlayer.deck.emptyCard + 1)),
             ⟨[], s.nextPlayer.deck.emptyCard + 1⟩) := by
          simp [Deck.deal]
        rcases le_or_lt (s.nextPlayer.health - (s.nextPlayer.deck.emptyCard + 1)) 0
          with hdead | hlive
        · have htc : ({ s.nextPlayer with
              currentMana := min (s.nextPlayer.currentMana + 1) 10,
              usedMana := 0 } : Player).takeCards 1 =
              ({ s.nextPlayer with
                 currentMana := min (s.nextPlayer.currentMana + 1) 10, usedMana := 0,
                 deck := ⟨[], s.nextPlayer.deck.emptyCard + 1⟩, health := 0 },
               some (.deadPlayer s.nextPlayer.id)) := by
            simp [Player.takeCards, Deck.deal, hdk, Player.setHealth, hdead]
          rw [hres, htc]
          refine ⟨{ s.nextPlayer with
              currentMana := min (s.nextPlayer.currentMana + 1) 10, usedMana := 0,
              deck := ⟨[], s.nextPlayer.deck.emptyCard + 1⟩, health := 0 }, ?_, rfl, rfl,
              by simp [hdk], by simp [hdk], ?_⟩
          · exact getPlayer_after_set _ _ _ _ hgp3 rfl
          · intro h0
            exact ⟨rfl, rfl, Or.inr ⟨hdead, rfl, rfl⟩⟩
        · have htc : ({ s.nextPlayer with
              currentMana := min (s.nextPlayer.currentMana + 1) 10,
              usedMana := 0 } : Player).takeCards 1 =
              ({ s.nextPlayer with
                 currentMana := min (s.nextPlayer.currentMana + 1) 10, usedMana := 0,
                 deck := ⟨[], s.nextPlayer.deck.emptyCard + 1⟩,
                 health := s.nextPlayer.health - (s.nextPlayer.deck.emptyCard + 1) },
               none) := by
            simp [Player.takeCards, Deck.deal, hdk, Player.setHealth, not_le.mpr hlive]
          rw [hres, htc]
          refine ⟨{ s.nextPlayer with
              currentMana := min (s.nextPlayer.currentMana + 1) 10, usedMana := 0,
              deck := ⟨[], s.nextPlayer.deck.emptyCard + 1⟩,
              health := s.nextPlayer.health - (s.nextPlayer.deck.emptyCard + 1) },
              ?_, rfl, rfl, by simp [hdk], by simp [hdk], ?_⟩
          · exact getPlayer_after_set _ _ _ _ hgp3 rfl
          · intro h0
            exact ⟨rfl, rfl, Or.inl ⟨hlive, rfl, rfl⟩⟩
      · -- non-empty deck: draw the front card
        have htc : ({ s.nextPlayer with
            currentMana := min (s.nextPlayer.currentMana + 1) 10,
            usedMana := 0 } : Player).takeCards 1 =
            ({ s.nextPlayer with
               currentMana := min (s.nextPlayer.currentMana + 1) 10, usedMana := 0,
               deck := ⟨rest, s.nextPlayer.deck.emptyCard⟩,
               hand := s.nextPlayer.hand ++ [c0] },
             none) := by
          simp [Player.takeCards, Deck.deal, hdk]
        rw [hres, htc]
        refine ⟨{ s.nextPlayer with
            currentMana := min (s.nextPlayer.currentMana + 1) 10, usedMana := 0,
            deck := ⟨rest, s.nextPlayer.deck.emptyCard⟩,
            hand := s.nextPlayer.hand ++ [c0] },
            ?_, rfl, rfl, by simp [hdk], ?_, by simp [hdk]⟩
        · exact getPlayer_after_set _ _ _ _ hgp3 rfl
        · intro h0
          exact ⟨rfl, by simp [hdk], rfl, rfl⟩

/-- A started two-player game in turn 1: player 0 (current) and player 1,
whose deck holds the single card id 7. -/
def endturnState : GameState :=
  ⟨[], [⟨0, 20, 1, 0, ⟨[], 0⟩, [], []⟩, ⟨1, 20, 0, 0, ⟨[7], 0⟩, [], []⟩],
   [], [], 1, true⟩

/-- C5 (witness). -/
theorem C5_endturn_witness :
    gameEndturn endturnState 5 = .err .invalidPlayerTurn endturnState ∧
    (gameEndturn endturnState 0).state.turnCounter = 2 ∧
    (∃ p, (gameEndturn endturnState 0).state.getPlayer 1 = some p ∧
      p.currentMana = 1 ∧ p.usedMana = 0 ∧ p.hand = [7]) ∧
    gameEndturn ⟨[], [], [], [], 0, false⟩ 0
      = .err .gameNotStarted ⟨[], [], [], [], 0, false⟩ := by
  have hmain := (C5_endturn endturnState 0).2.2 rfl (by decide) (by decide) rfl
  refine ⟨(C5_endturn endturnState 5).2.1 rfl (by decide), hmain.1, ?_,
    (C5_endturn ⟨[], [], [], [], 0, false⟩ 0).1 rfl⟩
  obtain ⟨p, hp, hm, hu, _, hne, _⟩ := hmain.2.2
  exact ⟨p, hp, hm, hu, (hne (by decide)).2.1⟩

/-! ## The board invariant (used by C1 and C7) -/

/-- The board invariant of the spec: the unit map's keys are unique, every
key resolves to a card object, and each player's set is duplicate-free,
holds at most `MAX_CARDS_PER_PLAYER` ids, all present in the unit map. -/
def boardInv (s : GameState) : Prop :=
  s.boardCards.Nodup ∧
  (∀ i ∈ s.boardCards, (lookupCard s.cards i).isSome = true) ∧
  (∀ entry ∈ s.boardPlayerCards, entry.2.Nodup ∧
    entry.2.length ≤ maxCardsPerPlayer ∧ ∀ i ∈ entry.2, i ∈ s.boardCards)

theorem lookupSet_mem (ss : List (Nat × List Nat)) (q : Nat) (l : List Nat)
    (h : lookupSet ss q = some l) : (q, l) ∈ ss := by
  induction ss with
  | nil => cases h
  | cons hd t ih =>
    obtain ⟨k, m⟩ := hd
    by_cases hk : k = q
    · subst hk
      rw [lookupSet, if_pos rfl] at h
      obtain rfl := Option.some.inj h
      exact List.mem_cons_self _ _
    · rw [lookupSet, if_neg hk] at h
      exact List.mem_cons_of_mem _ (ih h)

theorem boardInv_playerSet (s : GameState) (pid : Nat) (hinv : boardInv s) :
    (s.playerSet pid).Nodup ∧ (s.playerSet pid).length ≤ maxCardsPerPlayer ∧
      ∀ i ∈ s.playerSet pid, i ∈ s.boardCards := by
  unfold GameState.playerSet
  cases hs : lookupSet s.boardPlayerCards pid with
  | none => simp
  | some l =>
    simp only [Option.getD_some]
    exact hinv.2.2 (pid, l) (lookupSet_mem _ _ _ hs)

/-! ## C1: which errors can escape a play, and what they leave behind -/

/-- The errors that the gates of `Game.play` and `Board.play_card` own:
nothing below `Card.play` ever raises one of these. -/
abbrev benignErr (e : GErr) : Prop :=
  e ≠ .notEnoughMana ∧ e ≠ .gameNotStarted ∧ e ≠ .invalidPlayerTurn ∧ e ≠ .tooManyCards

theorem playerHealthSub_err (s : GameState) (pid : Nat) (d : Int) (e : GErr)
    (s1 : GameState) (h : playerHealthSub s pid d = .err e s1) :
    ∃ q, e = .deadPlayer q := by
  unfold playerHealthSub at h
  split at h
  case h_1 => exact PRes.noConfusion h
  case h_2 p hp =>
    unfold Player.setHealth at h
    rcases le_or_lt (p.health - d) 0 with hc | hc
    · rw [if_pos hc] at h
      dsimp only at h
      rw [PRes.err.injEq] at h
      obtain ⟨rfl, rfl⟩ := h
      exact ⟨p.id, rfl⟩
    · rw [if_neg (not_le.mpr hc)] at h
      dsimp only at h
      exact PRes.noConfusion h

theorem cardAttack_err (s : GameState) (aid : Nat) (v : RVictim) (e : GErr)
    (s1 : GameState) (h : cardAttack s aid v = .err e s1) :
    e = .missingCard ∨ e = .cardCannotAttack ∨ ∃ q, e = .deadPlayer q := by
  unfold cardAttack at h
  repeat' (first | split at h | dsimp only [minionSetHealth] at h)
  all_goals first
    | exact PRes.noConfusion h
    | (rw [PRes.err.injEq] at h
       obtain ⟨rfl, rfl⟩ := h
       first
         | exact Or.inl rfl
         | exact Or.inr (Or.inl rfl)
         | exact Or.inr (Or.inr (playerHealthSub_err _ _ _ _ _ (by assumption))))

theorem boardAttack_err (s : GameState) (aid : Nat) (v : AttackTarget) (e : GErr)
    (s1 : GameState) (h : boardAttack s aid v = .err e s1) :
    e = .missingCard ∨ e = .cardCannotAttack ∨ ∃ q, e = .deadPlayer q := by
  unfold boardAttack at h
  repeat' (first | split at h | dsimp only at h)
  all_goals first
    | exact PRes.noConfusion h
    | (rw [PRes.err.injEq] at h
       obtain ⟨rfl, rfl⟩ := h
       first
         | exact Or.inl rfl
         | exact cardAttack_err _ _ _ _ _ (by assumption))

theorem aoeLoop_err (victims : List Nat) : ∀ (s : GameState) (cid : Nat) (e : GErr)
    (s1 : GameState), aoeLoop s cid victims = .err e s1 →
    e = .missingCard ∨ e = .cardCannotAttack ∨ ∃ q, e = .deadPlayer q := by
  induction victims with
  | nil =>
    intro s cid e s1 h
    exact PRes.noConfusion (h.symm.trans (rfl : aoeLoop s cid [] = .ok () s).symm).symm
  | cons v t ih =>
    intro s cid e s1 h
    unfold aoeLoop at h
    split at h
    · rw [PRes.err.injEq] at h
      obtain ⟨rfl, rfl⟩ := h
      exact boardAttack_err _ _ _ _ _ (by assumption)
    · exact ih _ _ _ _ h

theorem healLoop_err (ids : List Nat) : ∀ (s : GameState) (v : Int) (e : GErr)
    (s1 : GameState), healLoop s ids v = .err e s1 → e = .deadCard := by
  induction ids with
  | nil =>
    intro s v e s1 h
    exact PRes.noConfusion h
  | cons i t ih =>
    intro s v e s1 h
    unfold healLoop at h
    split at h
    case h_1 => exact ih _ _ _ _ h
    case h_2 c hc =>
      unfold minionSetHealth at h
      dsimp only at h
      rcases le_or_lt (c.health + v) 0 with hcond | hcond
      · rw [if_pos hcond] at h
        dsimp only at h
        rw [PRes.err.injEq] at h
        exact h.1.symm
      · rw [if_neg (not_le.mpr hcond)] at h
        dsimp only at h
        exact ih _ _ _ _ h

theorem boardGetCard_err (s : GameState) (pid : Nat) (tid : Option Nat) (e : GErr)
    (h : boardGetCard s pid tid = .error e) : e = .missingCard := by
  unfold boardGetCard at h
  repeat' split at h
  all_goals first
    | exact Except.noConfusion h
    | (rw [Except.error.injEq] at h
       exact h.symm)

theorem abilityPlay_err_benign (s : GameState) (pid cid : Nat) (tid : Option Nat)
    (e : GErr) (s1 : GameState) (h : abilityPlay s pid cid tid = .err e s1) :
    benignErr e := by
  have hprop : ∀ e1 : GErr,
      e1 = .missingCard ∨ e1 = .cardCannotAttack ∨ (∃ q, e1 = .deadPlayer q) →
      benignErr e1 := by
    rintro e1 (rfl | rfl | ⟨q, rfl⟩) <;>
      exact ⟨fun hx => GErr.noConfusion hx, fun hx => GErr.noConfusion hx,
        fun hx => GErr.noConfusion hx, fun hx => GErr.noConfusion hx⟩
  unfold abilityPlay at h
  split at h
  case h_1 =>
    rw [PRes.err.injEq] at h
    obtain ⟨rfl, rfl⟩ := h
    decide
  case h_2 card hcard =>
    split at h
    case h_1 => exact PRes.noConfusion h
    case h_2 => exact PRes.noConfusion h
    case h_3 =>
      split at h
      · rw [PRes.err.injEq] at h
        obtain ⟨rfl, rfl⟩ := h
        decide
      · exact PRes.noConfusion h
    case h_4 =>
      split at h
      · rw [PRes.err.injEq] at h
        obtain ⟨rfl, rfl⟩ := h
        decide
      · have hd := healLoop_err _ _ _ _ _ h
        subst hd
        decide
    case h_5 =>
      split at h
      · rw [PRes.err.injEq] at h
        obtain ⟨rfl, rfl⟩ := h
        decide
      · split at h
        case h_1 e1 hbg =>
          rw [PRes.err.injEq] at h
          obtain ⟨rfl, rfl⟩ := h
          have := boardGetCard_err _ _ _ _ hbg
          subst this
          decide
        case h_2 tc hbg =>
          unfold minionSetHealth at h
          dsimp only at h
          rcases le_or_lt card.ability.val 0 with hcond | hcond
          · rw [if_pos hcond] at h
            dsimp only at h
            rw [PRes.err.injEq] at h
            obtain ⟨rfl, rfl⟩ := h
            decide
          · rw [if_neg (not_le.mpr hcond)] at h
            dsimp only at h
            exact PRes.noConfusion h
    case h_6 =>
      split at h
      · split at h
        case h_1 =>
          rw [PRes.err.injEq] at h
          obtain ⟨rfl, rfl⟩ := h
          decide
        case h_2 => exact hprop _ (boardAttack_err _ _ _ _ _ h)
        case h_3 e1 hne hbg =>
          rw [PRes.err.injEq] at h
          obtain ⟨rfl, rfl⟩ := h
          have := boardGetCard_err _ _ _ _ hbg
          subst this
          decide
      · split at h
        · rw [PRes.err.injEq] at h
          obtain ⟨rfl, rfl⟩ := h
          decide
        · exact hprop _ (aoeLoop_err _ _ _ _ _ h)

theorem cardSuperPlay_err_benign (s : GameState) (pid cid : Nat) (tid : Option Nat)
    (e : GErr) (s1 : GameState) (h : cardSuperPlay s pid cid tid = .err e s1) :
    benignErr e := by
  unfold cardSuperPlay at h
  repeat' (first | split at h | dsimp only at h)
  all_goals first
    | exact PRes.noConfusion h
    | (rw [PRes.err.injEq] at h
       obtain ⟨rfl, rfl⟩ := h
       first
         | decide
         | exact abilityPlay_err_benign _ _ _ _ _ _ (by assumption))

theorem boardPlayCard_err (s : GameState) (pid cid : Nat) (e : GErr) (s1 : GameState)
    (h : boardPlayCard s pid cid = .err e s1) : e = .tooManyCards ∧ s1 = s := by
  unfold boardPlayCard at h
  split at h
  · rw [PRes.err.injEq] at h
    exact ⟨h.1.symm, h.2.symm⟩
  · exact PRes.noConfusion h

theorem boardPlayCard_ok_cards (s : GameState) (pid cid : Nat) (u : Unit)
    (s1 : GameState) (h : boardPlayCard s pid cid = .ok u s1) : s1.cards = s.cards := by
  unfold boardPlayCard at h
  split at h
  · exact PRes.noConfusion h
  · rw [PRes.ok.injEq] at h
    rw [← h.2]
    rfl

theorem cardSuperPlay_err_cases (s : GameState) (pid cid : Nat) (tid : Option Nat)
    (e : GErr) (s1 : GameState) (h : cardSuperPlay s pid cid tid = .err e s1) :
    (lookupCard s.cards cid = none ∧ e = .missingCard ∧ s1 = s) ∨
    abilityPlay s pid cid tid = .err e s1 := by
  unfold cardSuperPlay at h
  split at h
  case h_1 heq =>
    rw [PRes.err.injEq] at h
    exact Or.inl ⟨heq, h.1.symm, h.2.symm⟩
  case h_2 card heq =>
    split at h
    · exact PRes.noConfusion h
    · split at h
      case h_1 e2 s2 hab =>
        rw [PRes.err.injEq] at h
        obtain ⟨rfl, rfl⟩ := h
        exact Or.inr hab
      case h_2 u s2 hab =>
        split at h <;> exact PRes.noConfusion h

theorem enemyCards_props (s : GameState) (pid : Nat) (hinv : boardInv s) :
    (s.enemyCards pid).Nodup ∧
    ∀ v ∈ s.enemyCards pid, v ∈ s.boardCards ∧ (lookupCard s.cards v).isSome = true := by
  unfold GameState.enemyCards
  split
  · simp
  · refine ⟨?_, ?_⟩
    · exact ((boardInv_playerSet s _ hinv).1).filter _
    · intro v hv
      rw [GameState.playedCards, List.mem_filter] at hv
      obtain ⟨hv1, hv2⟩ := hv
      have hb : v ∈ s.boardCards := by simpa using hv2
      exact ⟨hb, hinv.2.1 v hb⟩

theorem aoeLoop_spell_ok (victims : List Nat) : ∀ (s : GameState) (cid : Nat) (c : Card),
    lookupCard s.cards cid = some c → c.kind = .spell → victims.Nodup →
    (∀ v ∈ victims, v ∈ s.boardCards ∧ (lookupCard s.cards v).isSome = true) →
    ∃ s2, aoeLoop s cid victims = .ok () s2 := by
  induction victims with
  | nil =>
    intro s cid c _ _ _ _
    exact ⟨s, rfl⟩
  | cons v t ih =>
    intro s cid c hc hk hnd hall
    obtain ⟨hvb, hvs⟩ := hall v (List.mem_cons_self _ _)
    obtain ⟨vc, hvc⟩ := Option.isSome_iff_exists.mp hvs
    have hres := boardAttack_card_resolved s cid v hvb hvs
    rw [cardAttack_spell_card s cid v c vc hc hk hvc] at hres
    obtain ⟨hndv, hnt⟩ := List.nodup_cons.mp hnd
    have hstep : aoeLoop s cid (v :: t) =
        aoeLoop (removeAll (updStore s v { vc with health := max 0 (vc.health - c.damage) })
          (if vc.health - c.damage ≤ 0 then [v] else [])) cid t := by
      conv_lhs => rw [aoeLoop.eq_def]
      dsimp only
      rw [hres]
    have hcards : (removeAll (updStore s v { vc with health := max 0 (vc.health - c.damage) })
        (if vc.health - c.damage ≤ 0 then [v] else [])).cards
        = updateCard s.cards v { vc with health := max 0 (vc.health - c.damage) } := by
      rw [removeAll_cards]
      rfl
    have hboard : ∀ w, w ≠ v →
        (w ∈ (removeAll (updStore s v { vc with health := max 0 (vc.health - c.damage) })
          (if vc.health - c.damage ≤ 0 then [v] else [])).boardCards ↔ w ∈ s.boardCards) := by
      intro w hwv
      rcases le_or_lt (vc.health - c.damage) 0 with hcond | hcond
      · rw [if_pos hcond]
        simp only [removeAll_cons, removeAll_nil, removeCard_boardCards, updStore_boardCards]
        exact List.mem_erase_of_ne hwv
      · rw [if_neg (not_le.mpr hcond)]
        simp only [removeAll_nil, updStore_boardCards]
    have hall2 : ∀ w ∈ t,
        w ∈ (removeAll (updStore s v { vc with health := max 0 (vc.health - c.damage) })
          (if vc.health - c.damage ≤ 0 then [v] else [])).boardCards ∧
        (lookupCard (removeAll (updStore s v
          { vc with health := max 0 (vc.health - c.damage) })
          (if vc.health - c.damage ≤ 0 then [v] else [])).cards w).isSome = true := by
      intro w hw
      have hwv : w ≠ v := fun he => hndv (he ▸ hw)
      obtain ⟨hwb, hws⟩ := hall w (List.mem_cons_of_mem _ hw)
      refine ⟨(hboard w hwv).mpr hwb, ?_⟩
      rw [hcards, lookupCard_updateCard_ne _ _ _ _ hwv]
      exact hws
    rcases eq_or_ne v cid with rfl | hvcid
    · obtain rfl : vc = c := Option.some.inj (hvc.symm.trans hc)
      have hc2 : lookupCard (removeAll (updStore s v
          { vc with health := max 0 (vc.health - vc.damage) })
          (if vc.health - vc.damage ≤ 0 then [v] else [])).cards v
          = some { vc with health := max 0 (vc.health - vc.damage) } := by
        rw [hcards]
        exact lookupCard_updateCard_self _ _ _
      obtain ⟨s3, h3⟩ := ih _ v _ hc2 hk hnt hall2
      exact ⟨s3, by rw [hstep]; exact h3⟩
    · have hc2 : lookupCard (removeAll (updStore s v
          { vc with health := max 0 (vc.health - c.damage) })
          (if vc.health - c.damage ≤ 0 then [v] else [])).cards cid = some c := by
        rw [hcards, lookupCard_updateCard_ne _ _ _ _ (Ne.symm hvcid)]
        exact hc
      obtain ⟨s3, h3⟩ := ih _ cid _ hc2 hk hnt hall2
      exact ⟨s3, by rw [hstep]; exact h3⟩

theorem abilityPlay_spell_IA_unchanged (s : GameState) (pid cid : Nat) (tid : Option Nat)
    (e : GErr) (s1 : GameState) (c : Card)
    (h : abilityPlay s pid cid tid = .err e s1) (hia : e.isInvalidAction = true)
    (hc : lookupCard s.cards cid = some c) (hk : c.kind = .spell)
    (hsafe : ¬(c.ability.tag = .dealDamage ∧ c.ability.canTarget = true))
    (hinv : boardInv s) : s1 = s := by
  unfold abilityPlay at h
  split at h
  case h_1 heq => exact Option.noConfusion (hc.symm.trans heq)
  case h_2 card hcard2 =>
    obtain rfl : card = c := (Option.some.inj (hc.symm.trans hcard2)).symm
    split at h
    case h_1 => exact PRes.noConfusion h
    case h_2 => exact PRes.noConfusion h
    case h_3 =>
      split at h
      · rw [PRes.err.injEq] at h
        exact h.2.symm
      · exact PRes.noConfusion h
    case h_4 =>
      split at h
      · rw [PRes.err.injEq] at h
        exact h.2.symm
      · have hd := healLoop_err _ _ _ _ _ h
        subst hd
        exact absurd hia (by decide)
    case h_5 =>
      split at h
      · rw [PRes.err.injEq] at h
        exact h.2.symm
      · split at h
        case h_1 e1 hbg =>
          rw [PRes.err.injEq] at h
          exact h.2.symm
        case h_2 tc hbg =>
          unfold minionSetHealth at h
          dsimp only at h
          rcases le_or_lt card.ability.val 0 with hcond | hcond
          · rw [if_pos hcond] at h
            dsimp only at h
            rw [PRes.err.injEq] at h
            obtain ⟨rfl, rfl⟩ := h
            exact absurd hia (by decide)
          · rw [if_neg (not_le.mpr hcond)] at h
            dsimp only at h
            exact PRes.noConfusion h
    case h_6 htag =>
      split at h
      case isTrue hct => exact absurd ⟨htag, hct⟩ hsafe
      case isFalse hct =>
        split at h
        · rw [PRes.err.injEq] at h
          exact h.2.symm
        · obtain ⟨hend, hemem⟩ := enemyCards_props s pid hinv
          obtain ⟨s2, hok⟩ := aoeLoop_spell_ok (s.enemyCards pid) s cid card hc hk hend hemem
          rw [hok] at h
          exact PRes.noConfusion h

theorem abilityPlay_safe_minion_err (s : GameState) (pid cid : Nat) (e : GErr)
    (s1 : GameState) (card : Card)
    (hcard : lookupCard s.cards cid = some card)
    (htag : card.ability.tag = .base ∨ card.ability.tag = .charge ∨
      card.ability.tag = .increaseDamage ∨ card.ability.tag = .increaseMinionsHealth)
    (h : abilityPlay s pid cid none = .err e s1) : e = .deadCard := by
  unfold abilityPlay at h
  split at h
  case h_1 heq => exact Option.noConfusion (hcard.symm.trans heq)
  case h_2 card2 hcard2 =>
    obtain rfl : card2 = card := (Option.some.inj (hcard.symm.trans hcard2)).symm
    split at h
    case h_1 => exact PRes.noConfusion h
    case h_2 => exact PRes.noConfusion h
    case h_3 =>
      split at h
      · rename_i t2 heq
        exact Option.noConfusion heq
      · exact PRes.noConfusion h
    case h_4 =>
      split at h
      · rename_i t2 heq
        exact Option.noConfusion heq
      · exact healLoop_err _ _ _ _ _ h
    case h_5 htg =>
      rcases htag with h1 | h1 | h1 | h1 <;> rw [htg] at h1 <;> cases h1
    case h_6 htg =>
      rcases htag with h1 | h1 | h1 | h1 <;> rw [htg] at h1 <;> cases h1

/-- The card shapes whose play-phase ability can fail only before any
mutation (or not at all, a `DeadCardError` aside): every spell except a
targeted `DealDamage`, and every non-targeting minion whose ability is
none, `Charge`, `IncreaseDamage` or `IncreaseAlliesHealth`. -/
def SafeCard (c : Card) : Prop :=
  (c.kind = .spell ∧ ¬(c.ability.tag = .dealDamage ∧ c.ability.canTarget = true)) ∨
  (c.kind = .minion ∧ c.ability.canTarget = false ∧
    (c.ability.tag = .base ∨ c.ability.tag = .charge ∨
     c.ability.tag = .increaseDamage ∨ c.ability.tag = .increaseMinionsHealth))

theorem cardPlay_IA_unchanged (s : GameState) (pid cid : Nat) (tid : Option Nat)
    (e : GErr) (s1 : GameState)
    (h : cardPlay s pid cid tid = .err e s1) (hia : e.isInvalidAction = true)
    (hinv : boardInv s)
    (hsafe : ∀ c, lookupCard s.cards cid = some c → SafeCard c) : s1 = s := by
  unfold cardPlay at h
  split at h
  case h_1 heq =>
    rw [PRes.err.injEq] at h
    exact h.2.symm
  case h_2 card hcard =>
    have hsc := hsafe card hcard
    split at h
    case h_1 hkind =>
      rcases cardSuperPlay_err_cases _ _ _ _ _ _ h with ⟨hnone, _, rfl⟩ | hab
      · exact Option.noConfusion (hcard.symm.trans hnone)
      · rcases hsc with ⟨_, hnd⟩ | ⟨hmk, _⟩
        · exact abilityPlay_spell_IA_unchanged _ _ _ _ _ _ _ hab hia hcard hkind hnd hinv
        · rw [hkind] at hmk
          cases hmk
    case h_2 hkind =>
      rcases hsc with ⟨hsk, _⟩ | ⟨_, hct, htag4⟩
      · rw [hkind] at hsk
        cases hsk
      · split at h
        case isTrue =>
          rw [PRes.err.injEq] at h
          exact h.2.symm
        case isFalse hcond =>
          have htid : tid = none := by
            cases tid with
            | none => rfl
            | some t => exact absurd ⟨hct, rfl⟩ hcond
          split at h
          case h_1 e2 s2 hbp =>
            rw [PRes.err.injEq] at h
            obtain ⟨rfl, rfl⟩ := h
            exact (boardPlayCard_err _ _ _ _ _ hbp).2
          case h_2 u s2 hbp =>
            have hcards : s2.cards = s.cards := boardPlayCard_ok_cards _ _ _ _ _ hbp
            rcases cardSuperPlay_err_cases _ _ _ _ _ _ h with ⟨hnone, _, _⟩ | hab
            · rw [hcards] at hnone
              exact Option.noConfusion (hcard.symm.trans hnone)
            · subst htid
              have hdc := abilityPlay_safe_minion_err s2 pid cid e s1 card
                (hcards ▸ hcard) htag4 hab
              subst hdc
              exact absurd hia (by decide)

theorem cardPlay_gate_unchanged (s : GameState) (pid cid : Nat) (tid : Option Nat)
    (e : GErr) (s1 : GameState) (h : cardPlay s pid cid tid = .err e s1)
    (he : e = .notEnoughMana ∨ e = .tooManyCards ∨ e = .gameNotStarted ∨
      e = .invalidPlayerTurn) : s1 = s := by
  unfold cardPlay at h
  split at h
  case h_1 heq =>
    rw [PRes.err.injEq] at h
    exact h.2.symm
  case h_2 card hcard =>
    split at h
    case h_1 hkind =>
      have hbenign := cardSuperPlay_err_benign _ _ _ _ _ _ h
      rcases he with rfl | rfl | rfl | rfl
      · exact absurd rfl hbenign.1
      · exact absurd rfl hbenign.2.2.2
      · exact absurd rfl hbenign.2.1
      · exact absurd rfl hbenign.2.2.1
    case h_2 hkind =>
      split at h
      case isTrue =>
        rw [PRes.err.injEq] at h
        exact h.2.symm
      case isFalse =>
        split at h
        case h_1 e2 s2 hbp =>
          rw [PRes.err.injEq] at h
          obtain ⟨rfl, rfl⟩ := h
          exact (boardPlayCard_err _ _ _ _ _ hbp).2
        case h_2 u s2 hbp =>
          have hbenign := cardSuperPlay_err_benign _ _ _ _ _ _ h
          rcases he with rfl | rfl | rfl | rfl
          · exact absurd rfl hbenign.1
          · exact absurd rfl hbenign.2.2.2
          · exact absurd rfl hbenign.2.1
          · exact absurd rfl hbenign.2.2.1

/-- A started two-player game: player 0 (current) controls unit 10 and
holds the Stormpike-Commando-like minion 11, whose ability is the
targeted `DealDamage`. -/
def stormpikeState : GameState :=
  ⟨[(10, ⟨10, 1, .minion, 1, 3, false, false, ⟨.base, 0, false⟩⟩),
    (11, ⟨11, 0, .minion, 2, 2, false, false, ⟨.dealDamage, 2, true⟩⟩)],
   [⟨0, 20, 5, 0, ⟨[], 0⟩, [11], []⟩, ⟨1, 20, 5, 0, ⟨[], 0⟩, [], []⟩],
   [(0, [10]), (1, [])], [10], 1, true⟩

/-- C1 (counterexample): playing the targeted-`DealDamage` minion 11 on a
friendly unit raises `InvalidTarget` — an `InvalidAction`-family error —
yet the board's unit set has changed: the minion was placed on the board
before its ability's play phase rejected the target, while the hand still
holds the card. -/
theorem C1_counterexample :
    (gamePlay stormpikeState 0 11 (some 10)).error? = some .invalidTarget ∧
    GErr.invalidTarget.isInvalidAction = true ∧
    11 ∈ (gamePlay stormpikeState 0 11 (some 10)).state.boardCards ∧
    11 ∉ stormpikeState.boardCards ∧
    ((gamePlay stormpikeState 0 11 (some 10)).state.getPlayer 0).map Player.hand
      = some [11] := by
  decide

/-- C1 (amended): an engine play that fails with an `InvalidAction`-family
error leaves the game state exactly as before whenever the failure is one
of the gate checks (`NotEnoughMana`, `TooManyCards`, `GameNotStarted`,
`InvalidPlayerTurn` — all raised before any mutation), or whenever the
played card's play-phase ability cannot itself fail after mutation (any
spell except a targeted `DealDamage`; any non-targeting minion whose
ability is none, Charge, IncreaseDamage or IncreaseAlliesHealth).  A
minion or spell carrying the targeted `DealDamage`, or a minion with a
targeted ability, can fail its play phase after the board or the card was
already mutated, as the counterexample shows. -/
theorem C1_failed_play_no_mutation (s : GameState) (pid cid : Nat) (tid : Option Nat)
    (e : GErr) (sOut : GameState)
    (hrun : gamePlay s pid cid tid = .err e sOut)
    (hia : e.isInvalidAction = true)
    (hinv : boardInv s)
    (hcase : (e = .notEnoughMana ∨ e = .tooManyCards ∨ e = .gameNotStarted ∨
        e = .invalidPlayerTurn) ∨
      (∀ c, lookupCard s.cards cid = some c → SafeCard c)) :
    sOut = s := by
  unfold gamePlay at hrun
  split at hrun
  case h_1 e2 hcs =>
    rw [PRes.err.injEq] at hrun
    exact hrun.2.symm
  case h_2 hcs =>
    unfold playerPlay at hrun
    split at hrun
    case h_1 heq =>
      rw [PRes.err.injEq] at hrun
      exact hrun.2.symm
    case h_2 p hp =>
      split at hrun
      case isTrue =>
        rw [PRes.err.injEq] at hrun
        exact hrun.2.symm
      case isFalse =>
        split at hrun
        case h_1 heq =>
          rw [PRes.err.injEq] at hrun
          exact hrun.2.symm
        case h_2 card hcard =>
          split at hrun
          case isTrue =>
            rw [PRes.err.injEq] at hrun
            exact hrun.2.symm
          case isFalse =>
            split at hrun
            case h_1 e2 s2 hcp =>
              rw [PRes.err.injEq] at hrun
              obtain ⟨rfl, rfl⟩ := hrun
              rcases hcase with h4 | hsafe
              · exact cardPlay_gate_unchanged _ _ _ _ _ _ hcp h4
              · exact cardPlay_IA_unchanged _ _ _ _ _ _ hcp hia hinv hsafe
            case h_2 u s2 hcp => exact PRes.noConfusion hrun

/-- C1 (witness): a play rejected by the hand check leaves the state
untouched. -/
theorem C1_failed_play_no_mutation_witness :
    (gamePlay stormpikeState 0 99 none).state = stormpikeState := by
  refine C1_failed_play_no_mutation stormpikeState 0 99 none .missingCard
    ((gamePlay stormpikeState 0 99 none).state) rfl (by decide) ?_ (Or.inr ?_)
  · unfold boardInv
    exact ⟨by decide, by decide, by decide⟩
  · intro c hc
    exact Option.noConfusion
      ((show lookupCard stormpikeState.cards 99 = none by decide).symm.trans hc)

/-! ## C7: the board invariant is preserved by every public operation -/

theorem mem_updateSet (ss : List (Nat × List Nat)) (i : Nat) (l : List Nat)
    (entry : Nat × List Nat) (h : entry ∈ updateSet ss i l) :
    entry = (i, l) ∨ entry ∈ ss := by
  induction ss with
  | nil =>
    simp only [updateSet] at h
    exact Or.inl (List.mem_singleton.mp h)
  | cons hd t ih =>
    obtain ⟨k, m⟩ := hd
    by_cases hk : k = i
    · rw [updateSet, if_pos hk] at h
      rcases List.mem_cons.mp h with rfl | hm
      · exact Or.inl rfl
      · exact Or.inr (List.mem_cons_of_mem _ hm)
    · rw [updateSet, if_neg hk] at h
      rcases List.mem_cons.mp h with rfl | hm
      · exact Or.inr (List.mem_cons_self _ _)
      · rcases ih hm with h1 | h1
        · exact Or.inl h1
        · exact Or.inr (List.mem_cons_of_mem _ h1)

theorem setAdd_nodup (l : List Nat) (i : Nat) (h : l.Nodup) : (setAdd l i).Nodup := by
  unfold setAdd
  split
  · exact h
  · rename_i hni
    rw [List.nodup_append]
    exact ⟨h, List.nodup_singleton i,
      fun a ha hb => hni ((List.mem_singleton.mp hb) ▸ ha)⟩

theorem setAdd_length (l : List Nat) (i : Nat) : (setAdd l i).length ≤ l.length + 1 := by
  unfold setAdd
  split
  · exact Nat.le_succ _
  · simp

theorem mem_setAdd (l : List Nat) (i j : Nat) : j ∈ setAdd l i ↔ j ∈ l ∨ j = i := by
  unfold setAdd
  split
  · rename_i hi
    constructor
    · exact Or.inl
    · rintro (h | rfl)
      · exact h
      · exact hi
  · simp

theorem boardInv_updStore (s : GameState) (i : Nat) (c : Card) (hinv : boardInv s) :
    boardInv (updStore s i c) := by
  obtain ⟨h1, h2, h3⟩ := hinv
  unfold boardInv
  rw [updStore_cards, updStore_boardCards, updStore_boardPlayerCards]
  refine ⟨h1, ?_, h3⟩
  intro j hj
  rw [lookupCard_updateCard]
  by_cases hji : j = i
  · rw [if_pos hji]; rfl
  · rw [if_neg hji]; exact h2 j hj

theorem boardInv_updatePlayer (s : GameState) (pid : Nat) (f : Player → Player)
    (hinv : boardInv s) : boardInv (s.updatePlayer pid f) := hinv

@[simp] theorem removeCard_boardPlayerCards (s : GameState) (i : Nat) :
    (s.removeCard i).boardPlayerCards
      = s.boardPlayerCards.map (fun e => (e.1, e.2.erase i)) := rfl

theorem boardInv_removeCard (s : GameState) (cid : Nat) (hinv : boardInv s) :
    boardInv (s.removeCard cid) := by
  obtain ⟨h1, h2, h3⟩ := hinv
  refine ⟨?_, ?_, ?_⟩
  · rw [removeCard_boardCards]
    exact h1.erase cid
  · intro j hj
    rw [removeCard_cards]
    rw [removeCard_boardCards] at hj
    exact h2 j (List.mem_of_mem_erase hj)
  · intro entry he
    rw [removeCard_boardPlayerCards] at he
    obtain ⟨e0, he0, rfl⟩ := List.mem_map.mp he
    obtain ⟨hn, hl, hm⟩ := h3 e0 he0
    refine ⟨hn.erase cid, le_trans (List.erase_sublist _ _).length_le hl, ?_⟩
    intro j hj
    rw [removeCard_boardCards]
    obtain ⟨hne, hmem⟩ := (List.Nodup.mem_erase_iff hn).mp hj
    exact (List.mem_erase_of_ne hne).mpr (hm j hmem)

theorem boardInv_ensureKey (s : GameState) (pid : Nat) (hinv : boardInv s) :
    boardInv (s.ensureKey pid) := by
  unfold GameState.ensureKey
  split
  · exact hinv
  · obtain ⟨h1, h2, h3⟩ := hinv
    refine ⟨h1, h2, ?_⟩
    intro entry he
    rcases mem_updateSet _ _ _ _ he with rfl | hm
    · exact ⟨List.nodup_nil, by simp [maxCardsPerPlayer], by simp⟩
    · exact h3 entry hm

theorem boardInv_removeAll (ids : List Nat) : ∀ (s : GameState), boardInv s →
    boardInv (removeAll s ids) := by
  induction ids with
  | nil => intro s h; exact h
  | cons i t ih =>
    intro s h
    rw [removeAll_cons]
    exact ih _ (boardInv_removeCard _ _ h)

theorem playedCards_eq_playerSet (s : GameState) (pid : Nat) (hinv : boardInv s) :
    s.playedCards pid = s.playerSet pid := by
  unfold GameState.playedCards
  exact List.filter_eq_self.mpr
    (fun i hi => decide_eq_true ((boardInv_playerSet s pid hinv).2.2 i hi))

theorem boardInv_addCard (s : GameState) (pid cid : Nat) (hinv : boardInv s)
    (hcid : (lookupCard s.cards cid).isSome = true)
    (hlen : (s.playerSet pid).length < maxCardsPerPlayer) :
    boardInv (s.addCard pid cid) := by
  obtain ⟨h1, h2, h3⟩ := hinv
  refine ⟨?_, ?_, ?_⟩
  · exact setAdd_nodup _ _ h1
  · intro j hj
    rcases (mem_setAdd _ _ _).mp hj with hm | rfl
    · exact h2 j hm
    · exact hcid
  · intro entry he
    rcases mem_updateSet _ _ _ _ he with rfl | hm
    · obtain ⟨hn, _, hsub⟩ := boardInv_playerSet s pid ⟨h1, h2, h3⟩
      refine ⟨setAdd_nodup _ _ hn, le_trans (setAdd_length _ _) hlen, ?_⟩
      intro j hj
      rcases (mem_setAdd _ _ _).mp hj with hm2 | rfl
      · exact (mem_setAdd _ _ _).mpr (Or.inl (hsub j hm2))
      · exact (mem_setAdd _ _ _).mpr (Or.inr rfl)
    · obtain ⟨hn, hl, hs⟩ := h3 entry hm
      exact ⟨hn, hl, fun j hj => (mem_setAdd _ _ _).mpr (Or.inl (hs j hj))⟩

theorem boardPlayCard_inv (s : GameState) (pid cid : Nat) (hinv : boardInv s)
    (hcid : (lookupCard s.cards cid).isSome = true) :
    boardInv (boardPlayCard s pid cid).state := by
  unfold boardPlayCard
  split
  · exact hinv
  · rename_i hgate
    have hlen : (s.playerSet pid).length < maxCardsPerPlayer := by
      rw [← playedCards_eq_playerSet s pid hinv]
      exact not_le.mp hgate
    exact boardInv_addCard s pid cid hinv hcid hlen

theorem playerHealthSub_inv (s : GameState) (pid : Nat) (d : Int) (hinv : boardInv s) :
    boardInv (playerHealthSub s pid d).state := by
  unfold playerHealthSub
  split
  · exact hinv
  · split
    · exact boardInv_updatePlayer _ _ _ hinv
    · exact boardInv_updatePlayer _ _ _ hinv

theorem playerHealthSub_inv_eq (s : GameState) (pid : Nat) (d : Int) (r : PRes Unit)
    (hr : playerHealthSub s pid d = r) (hinv : boardInv s) : boardInv r.state := by
  subst hr
  exact playerHealthSub_inv s pid d hinv

theorem playerHealthSub_inv_ok (s : GameState) (pid : Nat) (d : Int) (u : Unit)
    (s1 : GameState) (hr : playerHealthSub s pid d = .ok u s1) (hinv : boardInv s) :
    boardInv s1 := by
  have h := playerHealthSub_inv s pid d hinv
  rw [hr] at h
  exact h

theorem cardAttack_inv (s : GameState) (aid : Nat) (v : RVictim) (hinv : boardInv s) :
    boardInv (cardAttack s aid v).state := by
  unfold cardAttack
  repeat' (first | split | dsimp only [minionSetHealth])
  all_goals first
    | exact hinv
    | exact boardInv_updStore _ _ _ hinv
    | exact boardInv_updStore _ _ _ (boardInv_updStore _ _ _ hinv)
    | exact boardInv_updStore _ _ _ (boardInv_updStore _ _ _ (boardInv_updStore _ _ _ hinv))
    | exact playerHealthSub_inv_eq _ _ _ _ (by assumption) hinv
    | exact playerHealthSub_inv_eq _ _ _ _ (by assumption) (boardInv_updStore _ _ _ hinv)
    | exact boardInv_updStore _ _ _
        (playerHealthSub_inv_ok _ _ _ _ _ (by assumption) (boardInv_updStore _ _ _ hinv))

theorem cardAttack_inv_eq (s : GameState) (aid : Nat) (v : RVictim) (r : PRes (List Nat))
    (hr : cardAttack s aid v = r) (hinv : boardInv s) : boardInv r.state := by
  subst hr
  exact cardAttack_inv s aid v hinv

theorem cardAttack_inv_ok (s : GameState) (aid : Nat) (v : RVictim) (dead : List Nat)
    (s1 : GameState) (hr : cardAttack s aid v = .ok dead s1) (hinv : boardInv s) :
    boardInv s1 := by
  have h := cardAttack_inv s aid v hinv
  rw [hr] at h
  exact h

theorem boardAttack_inv (s : GameState) (aid : Nat) (v : AttackTarget) (hinv : boardInv s) :
    boardInv (boardAttack s aid v).state := by
  unfold boardAttack
  repeat' (first | split | dsimp only)
  all_goals first
    | exact hinv
    | exact cardAttack_inv_eq _ _ _ _ (by assumption) hinv
    | exact boardInv_removeAll _ _ (cardAttack_inv_ok _ _ _ _ _ (by assumption) hinv)

theorem boardAttack_inv_eq (s : GameState) (aid : Nat) (v : AttackTarget) (r : PRes Unit)
    (hr : boardAttack s aid v = r) (hinv : boardInv s) : boardInv r.state := by
  subst hr
  exact boardAttack_inv s aid v hinv

theorem healLoop_inv (ids : List Nat) : ∀ (s : GameState) (v : Int), boardInv s →
    boardInv (healLoop s ids v).state := by
  induction ids with
  | nil => intro s v h; exact h
  | cons i t ih =>
    intro s v h
    unfold healLoop
    split
    case h_1 => exact ih _ _ h
    case h_2 c hc =>
      dsimp only [minionSetHealth]
      split
      · exact boardInv_updStore _ _ _ h
      · exact ih _ _ (boardInv_updStore _ _ _ h)

theorem aoeLoop_inv (victims : List Nat) : ∀ (s : GameState) (cid : Nat), boardInv s →
    boardInv (aoeLoop s cid victims).state := by
  induction victims with
  | nil => intro s cid h; exact h
  | cons i t ih =>
    intro s cid h
    unfold aoeLoop
    split
    case h_1 e s1 heq => exact boardAttack_inv_eq _ _ _ _ heq h
    case h_2 u s1 heq => exact ih _ _ (boardAttack_inv_eq _ _ _ _ heq h)

theorem abilityPlay_inv (s : GameState) (pid cid : Nat) (tid : Option Nat)
    (hinv : boardInv s) : boardInv (abilityPlay s pid cid tid).state := by
  unfold abilityPlay
  repeat' (first | split | dsimp only [minionSetHealth])
  all_goals first
    | exact hinv
    | exact boardInv_updStore _ _ _ hinv
    | exact boardInv_updStore _ _ _ (boardInv_updStore _ _ _ hinv)
    | exact healLoop_inv _ _ _ hinv
    | exact aoeLoop_inv _ _ _ hinv
    | exact boardAttack_inv _ _ _ (boardInv_updStore _ _ _ hinv)

theorem abilityPlay_inv_eq (s : GameState) (pid cid : Nat) (tid : Option Nat)
    (r : PRes Unit) (hr : abilityPlay s pid cid tid = r) (hinv : boardInv s) :
    boardInv r.state := by
  subst hr
  exact abilityPlay_inv s pid cid tid hinv

theorem abilityPlay_inv_ok (s : GameState) (pid cid : Nat) (tid : Option Nat)
    (u : Unit) (s1 : GameState) (hr : abilityPlay s pid cid tid = .ok u s1)
    (hinv : boardInv s) : boardInv s1 := by
  have h := abilityPlay_inv s pid cid tid hinv
  rw [hr] at h
  exact h

theorem cardSuperPlay_inv (s : GameState) (pid cid : Nat) (tid : Option Nat)
    (hinv : boardInv s) : boardInv (cardSuperPlay s pid cid tid).state := by
  unfold cardSuperPlay
  repeat' split
  all_goals first
    | exact hinv
    | exact abilityPlay_inv_eq _ _ _ _ _ (by assumption) hinv
    | exact abilityPlay_inv_ok _ _ _ _ _ _ (by assumption) hinv
    | exact boardInv_updStore _ _ _ (abilityPlay_inv_ok _ _ _ _ _ _ (by assumption) hinv)

theorem cardPlay_inv (s : GameState) (pid cid : Nat) (tid : Option Nat)
    (hinv : boardInv s) : boardInv (cardPlay s pid cid tid).state := by
  unfold cardPlay
  split
  case h_1 => exact hinv
  case h_2 card hcard =>
    split
    case h_1 => exact cardSuperPlay_inv _ _ _ _ hinv
    case h_2 =>
      split
      case isTrue => exact hinv
      case isFalse =>
        split
        case h_1 e s1 heq =>
          obtain ⟨rfl, rfl⟩ := boardPlayCard_err _ _ _ _ _ heq
          exact hinv
        case h_2 u s1 heq =>
          have h1 : boardInv s1 := by
            have h := boardPlayCard_inv s pid cid hinv (by rw [hcard]; rfl)
            rw [heq] at h
            exact h
          exact cardSuperPlay_inv _ _ _ _ h1

theorem cardPlay_inv_eq (s : GameState) (pid cid : Nat) (tid : Option Nat)
    (r : PRes Unit) (hr : cardPlay s pid cid tid = r) (hinv : boardInv s) :
    boardInv r.state := by
  subst hr
  exact cardPlay_inv s pid cid tid hinv

theorem cardPlay_inv_ok (s : GameState) (pid cid : Nat) (tid : Option Nat)
    (u : Unit) (s1 : GameState) (hr : cardPlay s pid cid tid = .ok u s1)
    (hinv : boardInv s) : boardInv s1 := by
  have h := cardPlay_inv s pid cid tid hinv
  rw [hr] at h
  exact h

theorem playerPlay_inv (s : GameState) (pid cid : Nat) (tid : Option Nat)
    (hinv : boardInv s) : boardInv (playerPlay s pid cid tid).state := by
  unfold playerPlay
  repeat' split
  all_goals first
    | exact hinv
    | exact cardPlay_inv_eq _ _ _ _ _ (by assumption) hinv
    | exact boardInv_updatePlayer _ _ _ (cardPlay_inv_ok _ _ _ _ _ _ (by assumption) hinv)

theorem gamePlay_inv (s : GameState) (pid cid : Nat) (tid : Option Nat)
    (hinv : boardInv s) : boardInv (gamePlay s pid cid tid).state := by
  unfold gamePlay
  split
  · exact hinv
  · exact playerPlay_inv _ _ _ _ hinv

theorem resetCardsLoop_inv (ids : List Nat) : ∀ (s : GameState), boardInv s →
    boardInv (resetCardsLoop s ids) := by
  induction ids with
  | nil => intro s h; exact h
  | cons i t ih =>
    intro s h
    unfold resetCardsLoop
    split
    · exact ih _ h
    · exact ih _ (boardInv_updStore _ _ _ h)

theorem boardResetCards_inv (s : GameState) (pid : Nat) (hinv : boardInv s) :
    boardInv (boardResetCards s pid) :=
  resetCardsLoop_inv _ _ (boardInv_ensureKey _ _ hinv)

theorem gameEndturn_inv (s : GameState) (pid : Nat) (hinv : boardInv s) :
    boardInv (gameEndturn s pid).state := by
  unfold gameEndturn
  split
  · exact hinv
  · have h1 : boardInv { s with turnCounter := s.turnCounter + 1 } := hinv
    dsimp only
    repeat' split
    all_goals exact boardInv_updatePlayer _ _ _ (boardResetCards_inv _ _ h1)

theorem gameStart_inv (s : GameState) (hinv : boardInv s) :
    boardInv (gameStart s).state := by
  unfold gameStart
  split
  · exact hinv
  · dsimp only
    exact gameEndturn_inv _ _ (show boardInv { s with started := true } from hinv)

theorem gameAttack_inv (s : GameState) (pid aid vid : Nat) (hinv : boardInv s) :
    boardInv (gameAttack s pid aid vid).state := by
  unfold gameAttack
  repeat' (first | split | dsimp only)
  all_goals first
    | exact hinv
    | exact boardAttack_inv _ _ _ hinv

theorem applyAction_inv (a : GAction) (s : GameState) (hinv : boardInv s) :
    boardInv (applyAction a s).state := by
  cases a with
  | start => exact gameStart_inv _ hinv
  | endturn pid => exact gameEndturn_inv _ _ hinv
  | play pid cid tid => exact gamePlay_inv _ _ _ _ hinv
  | attack pid aid vid => exact gameAttack_inv _ _ _ _ hinv

/-- A state reachable from a freshly-constructed game (`Game.__init__`
builds an empty board) by any sequence of public API calls, keeping also
the state an exception leaves behind. -/
inductive Reachable : GameState → Prop where
  | base (s : GameState) (hp : s.boardPlayerCards = []) (hc : s.boardCards = []) :
      Reachable s
  | step (s : GameState) (a : GAction) (hs : Reachable s) :
      Reachable (applyAction a s).state

/-- C7: in every reachable game state the board invariant holds — the
unit map's ids are unique and resolve to card objects, and each player's
set is duplicate-free, contains at most `MAX_CARDS_PER_PLAYER` (7) ids,
all of which appear in the unit map — and `Board.play_card` rejects a
play with `TooManyCardsError`, without mutation, whenever the player
already shows 7 played units. -/
theorem C7_board_invariant (s : GameState) (h : Reachable s) :
    boardInv s ∧
    ∀ pid cid, maxCardsPerPlayer ≤ (s.playedCards pid).length →
      boardPlayCard s pid cid = .err .tooManyCards s := by
  constructor
  · induction h with
    | base s hp hc =>
      refine ⟨?_, ?_, ?_⟩
      · rw [hc]; exact List.nodup_nil
      · intro i hi
        rw [hc] at hi
        exact absurd hi (List.not_mem_nil i)
      · intro entry he
        rw [hp] at he
        exact absurd he (List.not_mem_nil entry)
    | step s a hs ih => exact applyAction_inv a s ih
  · intro pid cid hlen
    unfold boardPlayCard
    rw [if_pos hlen]

/-- C7 (witness): the invariant and the `play_card` gate at a concrete
freshly-built game state. -/
theorem C7_board_invariant_witness :
    boardInv fatigueStart ∧
    ∀ pid cid, maxCardsPerPlayer ≤ (fatigueStart.playedCards pid).length →
      boardPlayCard fatigueStart pid cid = .err .tooManyCards fatigueStart :=
  C7_board_invariant fatigueStart (Reachable.base fatigueStart rfl rfl)

end PyHeart
